import Mathlib

/-!
Verification development for the `sims_utils` spherical-astrometry and
time-scale utilities.  The Python sources are shallowly embedded:
floating-point numbers are modelled as exact reals (or rationals where the
computation is purely field arithmetic), numpy arrays as lists, the dynamic
scalar-vs-array dispatch as a sum type, IEEE NaN as an explicit `Option`
tag or an error branch, and the external `palpy` primitives (sidereal-time
polynomial, alt-az triangle, gnomonic projection, observed-frame service)
as function parameters, since the spec treats them as opaque collaborators.
-/

namespace SimsUtils

noncomputable section

open Real

/-- Python float modulo (`x % y` for floats): `x - y * floor (x / y)`.
Used by `calcGmstGast`, `calcLmstLast`, `getRotSkyPos`, `getRotTelPos`. -/
def pymod (x y : ℝ) : ℝ := x - y * ⌊x / y⌋

/-- `numpy.degrees`. -/
def npDegrees (x : ℝ) : ℝ := x * 180 / π

/-- `numpy.radians`. -/
def npRadians (x : ℝ) : ℝ := x * π / 180

/-- `numpy.sign` on a real (never-NaN) value: -1, 0 or 1. -/
def nsign (r : ℝ) : ℝ := if r < 0 then -1 else if r = 0 then 0 else 1

/-- `numpy.arctan2 y x`, embedded as the argument of the complex number
`x + y i`; this matches the C `atan2` convention numpy follows, with
range `(-pi, pi]` and `arctan2 0 0 = 0`. -/
def arctan2 (y x : ℝ) : ℝ := Complex.arg { re := x, im := y }

/-- A numpy argument that is either a scalar or a 1-d array
(`isinstance(x, numpy.ndarray)` dispatch). -/
inductive NpVal where
  | scalar : ℝ → NpVal
  | arr : List ℝ → NpVal

/-!
## Sidereal time and rotator angles
(`coordinateTransformations.py`)

`palpy.gmsta`, `palpy.eqeqx` and `palpy.altaz` are external primitives;
the embedding takes them as parameters.  `palAltaz ha dec lat` returns the
`(azimuth, altitude, parallactic angle)` components of the nine values
`palpy.altaz` produces (the derivatives are unused by this code).
-/

variable (palGmsta : ℝ → ℝ → ℝ) (palEqeqx : ℝ → ℝ)
variable (palAltaz : ℝ → ℝ → ℝ → ℝ × ℝ × ℝ)

/-- `calcGmstGast(mjd)` (scalar path): Greenwich mean/apparent sidereal
time in hours, both reduced modulo 24. -/
def calcGmstGast (mjd : ℝ) : ℝ × ℝ :=
  let date : ℝ := ⌊mjd⌋
  let ut1 := mjd - date
  let gmst := palGmsta date ut1
  let gast := gmst + palEqeqx mjd
  (pymod (gmst * 24.0 / (2.0 * π)) 24.0, pymod (gast * 24.0 / (2.0 * π)) 24.0)

/-- The longitude normalisation step of `calcLmstLast` (scalar path):
degrees, reduced mod 360, then shifted into `(-180, 180]`. -/
def normLongDeg (longRad : ℝ) : ℝ :=
  let longDeg0 := pymod (npDegrees longRad) 360.0
  if 180.0 < longDeg0 then longDeg0 - 360.0 else longDeg0

/-- `calcLmstLast(mjd, longRad)` for scalar `mjd` and scalar `longRad`:
local mean / apparent sidereal time in hours, reduced modulo 24. -/
def calcLmstLastScalar (mjd longRad : ℝ) : ℝ × ℝ :=
  let hrs := normLongDeg longRad / 15.0
  let g := calcGmstGast palGmsta palEqeqx mjd
  (pymod (g.1 + hrs) 24.0, pymod (g.2 + hrs) 24.0)

/-- `calcLmstLast` with the scalar/array dispatch and shape checks of the
source (both `CoordinateTransformations.py` and
`coordinateTransformations.py` contain the identical function).  The
vectorised numpy arithmetic is elementwise, so array results are embedded
as the per-element scalar computation. -/
def calcLmstLast (mjd longRad : NpVal) : Except String (NpVal × NpVal) :=
  match mjd, longRad with
  | NpVal.arr ms, NpVal.arr ls =>
      if ms.length ≠ ls.length then
        Except.error "in calcLmstLast mjd and longRad have different lengths"
      else
        Except.ok
          (NpVal.arr ((ms.zip ls).map fun p =>
              (calcLmstLastScalar palGmsta palEqeqx p.1 p.2).1),
           NpVal.arr ((ms.zip ls).map fun p =>
              (calcLmstLastScalar palGmsta palEqeqx p.1 p.2).2))
  | NpVal.scalar _, NpVal.arr _ =>
      Except.error "in calcLmstLast longRad is numpy array but mjd is not"
  | NpVal.arr ms, NpVal.scalar l =>
      Except.ok
        (NpVal.arr (ms.map fun m => (calcLmstLastScalar palGmsta palEqeqx m l).1),
         NpVal.arr (ms.map fun m => (calcLmstLastScalar palGmsta palEqeqx m l).2))
  | NpVal.scalar m, NpVal.scalar l =>
      let r := calcLmstLastScalar palGmsta palEqeqx m l
      Except.ok (NpVal.scalar r.1, NpVal.scalar r.2)

/-- `raDecToAltAzPa` (scalar path): hour angle from local apparent
sidereal time, then the external `palpy.altaz` spherical-triangle
primitive.  Returns `(alt, az, pa)` as the source does. -/
def raDecToAltAzPa (raRad decRad longRad latRad mjd : ℝ) : ℝ × ℝ × ℝ :=
  let last := (calcLmstLastScalar palGmsta palEqeqx mjd longRad).2
  let haRad := npRadians (last * 15.0) - raRad
  let r := palAltaz haRad decRad latRad
  (r.2.1, r.1, r.2.2)

/-- `altAzToRaDec` (scalar path): spherical law of cosines for Dec, then
`arccos` for the hour-angle magnitude with the azimuth-sign branch
(`numpy.where(sin az >= 0, -ha0, ha0)`). -/
def altAzToRaDec (altRad azRad longRad latRad mjd : ℝ) : ℝ × ℝ :=
  let last := (calcLmstLastScalar palGmsta palEqeqx mjd longRad).2
  let sinAlt := Real.sin altRad
  let cosLat := Real.cos latRad
  let sinLat := Real.sin latRad
  let decRad := Real.arcsin (sinLat * sinAlt + cosLat * Real.cos altRad * Real.cos azRad)
  let haRad0 := Real.arccos ((sinAlt - Real.sin decRad * sinLat) / (Real.cos decRad * cosLat))
  let haRad := if 0 ≤ Real.sin azRad then -1.0 * haRad0 else haRad0
  let raRad := npRadians (last * 15.0) - haRad
  (raRad, decRad)

/-- `getRotSkyPos` (scalar path). -/
def getRotSkyPos (raRad decRad longRad latRad mjd rotTelRad : ℝ) : ℝ :=
  let paRad := (raDecToAltAzPa palGmsta palEqeqx palAltaz raRad decRad longRad latRad mjd).2.2
  pymod (rotTelRad - paRad + π) (2.0 * π)

/-- `getRotTelPos` (scalar path). -/
def getRotTelPos (raRad decRad longRad latRad mjd rotSkyRad : ℝ) : ℝ :=
  let paRad := (raDecToAltAzPa palGmsta palEqeqx palAltaz raRad decRad longRad latRad mjd).2.2
  pymod (rotSkyRad + paRad) (2.0 * π)

/-!
## Native longitude/latitude (`WcsUtils.py`)

Vectors are triples `(x, y, z)`.  The two Euler rotations are written out
exactly as the source's matrix products.  IEEE NaN enters only through
`_y = v2[1]/cos(latOut)` when `cos(latOut) = 0` (a 0/0, since
`cos(latOut) = 0` forces `v2[0] = v2[1] = 0` for the unit vectors this
code builds) and through `arccos` of a ratio outside `[-1, 1]`; both are
tracked explicitly.
-/

/-- The unit vector the source builds from a longitude/latitude pair
(lines 39-41 and 166-168): `(-cos b sin a, cos b cos a, sin b)`. -/
def unitVec (a b : ℝ) : ℝ × ℝ × ℝ :=
  (-1.0 * Real.cos b * Real.sin a, Real.cos b * Real.cos a, Real.sin b)

/-- Forward rotation of `_nativeLonLatFromRaDec`:
`v2 = Rx(alpha) . (Rz(beta) . v)` with `alpha = decPointing - pi/2`,
`beta = -raPointing`, matrices as written in the source. -/
def rotForward (raPointing decPointing : ℝ) (v : ℝ × ℝ × ℝ) : ℝ × ℝ × ℝ :=
  let alpha := decPointing - 0.5 * π
  let beta := -1.0 * raPointing
  let ca := Real.cos alpha
  let sa := Real.sin alpha
  let cb := Real.cos beta
  let sb := Real.sin beta
  let w1 := cb * v.1 + (-1.0 * sb) * v.2.1
  let w2 := sb * v.1 + cb * v.2.1
  let w3 := v.2.2
  (w1, ca * w2 + sa * w3, (-1.0 * sa) * w2 + ca * w3)

/-- Inverse rotation of `_raDecFromNativeLonLat`:
`v2 = Rz(beta) . (Rx(alpha) . v)` with `alpha = pi/2 - decPointing`,
`beta = raPointing`. -/
def rotInverse (raPointing decPointing : ℝ) (v : ℝ × ℝ × ℝ) : ℝ × ℝ × ℝ :=
  let alpha := 0.5 * π - decPointing
  let beta := raPointing
  let ca := Real.cos alpha
  let sa := Real.sin alpha
  let cb := Real.cos beta
  let sb := Real.sin beta
  let w1 := v.1
  let w2 := ca * v.2.1 + sa * v.2.2
  let w3 := (-1.0 * sa) * v.2.1 + ca * v.2.2
  (cb * w1 + (-1.0 * sb) * w2, sb * w1 + cb * w2, w3)

/-- The quadrant flip applied to a recovered angle `ra0` (candidate
`arccos` value) against the Cartesian components `v0, v1` and the ratio
`y`; `x = -sin ra0` is the implied sine candidate (source lines 82-96 and
194-208). -/
def lonFlip (ra0 y v0 v1 : ℝ) : ℝ :=
  let x := -Real.sin ra0
  if (1.0e-9 < |x| ∧ nsign x ≠ nsign v0) ∨ (1.0e-9 < |y| ∧ nsign y ≠ nsign v1) then
    2.0 * π - ra0
  else
    ra0

/-- Scalar tail of `_nativeLonLatFromRaDec` (source lines 64-98) given the
`arccos` argument `_y` (`none` encodes NaN) and the components `v2[0]`,
`v2[1]`.  When `_ra_raw = arccos(_y)` is NaN the scalar fix stores a
builtin Python float (`numpy.pi` or `0.0`) in `_ra`; the subsequent
`type(_ra) is numpy.float64` dispatch is then False, so control falls into
the array branch whose `zip(_ra, ...)` raises `TypeError` on the scalar.
Both NaN sources (`_y` itself NaN, or `|_y| > 1`) hit that path. -/
def scalarLonFromRatio : Option ℝ → ℝ → ℝ → Except String ℝ
  | none, _, _ => Except.error "TypeError"
  | some y, v0, v1 =>
      if 1 < |y| then Except.error "TypeError"
      else Except.ok (lonFlip (Real.arccos y) y v0 v1)

/-- Batch (per-element) tail of `_nativeLonLatFromRaDec` (source lines
69-72 and 93-98).  A NaN `arccos` result is replaced by
`0.5*pi*(1 - sign(_y))`; if `_y` itself is NaN, `sign(_y)` is NaN, the
element stays NaN through the flip and the final cleanup writes `0.0`. -/
def batchLonFromRatio : Option ℝ → ℝ → ℝ → ℝ
  | none, _, _ => 0
  | some y, v0, v1 =>
      let ra0 := if 1 < |y| then 0.5 * π * (1.0 - nsign y) else Real.arccos y
      lonFlip ra0 y v0 v1

/-- Scalar tail of `_raDecFromNativeLonLat` (source lines 192-203): here
`_ra = arccos(_y)` stays a `numpy.float64` even when NaN, so the
`isnan` branch fires and yields `raOut = 0.0` - for both NaN sources and
regardless of the sign of `_y`. -/
def scalarRaFromRatio : Option ℝ → ℝ → ℝ → ℝ
  | none, _, _ => 0
  | some y, v0, v1 =>
      if 1 < |y| then 0
      else lonFlip (Real.arccos y) y v0 v1

/-- Batch (per-element) tail of `_raDecFromNativeLonLat` (source lines
205-210): a NaN element stays NaN through the flip (conditions on NaN
compare False, and `2*pi - NaN` is NaN) and the final cleanup writes
`0.0`. -/
def batchRaFromRatio : Option ℝ → ℝ → ℝ → ℝ
  | none, _, _ => 0
  | some y, v0, v1 =>
      if 1 < |y| then 0
      else lonFlip (Real.arccos y) y v0 v1

/-- The `_y` ratio fed to `arccos`: `v2[1] / cos(latOut)`, with `none`
for the NaN produced by numpy when `cos(latOut) = 0` (for the unit
vectors built here that division is `0.0/0.0`). -/
def ratioOfVec (v2 : ℝ × ℝ × ℝ) (latOut : ℝ) : Option ℝ :=
  if Real.cos latOut = 0 then none else some (v2.2.1 / Real.cos latOut)

/-- `_nativeLonLatFromRaDec` (scalar path).  Builds the unit vector,
rotates it, recovers `latOut = arctan2(v2[2], cc)` and the longitude
through the scalar `arccos` tail. -/
def nativeLonLatScalar (ra dec raPointing decPointing : ℝ) :
    Except String (ℝ × ℝ) :=
  let v2 := rotForward raPointing decPointing (unitVec ra dec)
  let cc := Real.sqrt (v2.1 * v2.1 + v2.2.1 * v2.2.1)
  let latOut := arctan2 v2.2.2 cc
  match scalarLonFromRatio (ratioOfVec v2 latOut) v2.1 v2.2.1 with
  | Except.error e => Except.error e
  | Except.ok lonOut => Except.ok (lonOut, latOut)

/-- `_nativeLonLatFromRaDec`, one element of the batched path. -/
def nativeLonLatBatchElem (ra dec raPointing decPointing : ℝ) : ℝ × ℝ :=
  let v2 := rotForward raPointing decPointing (unitVec ra dec)
  let cc := Real.sqrt (v2.1 * v2.1 + v2.2.1 * v2.2.1)
  let latOut := arctan2 v2.2.2 cc
  (batchLonFromRatio (ratioOfVec v2 latOut) v2.1 v2.2.1, latOut)

/-- `_raDecFromNativeLonLat` (scalar path; the batched path computes the
same values elementwise, its NaN handling also yielding `raOut = 0`). -/
def raDecFromNativeLonLat (lon lat raPointing decPointing : ℝ) : ℝ × ℝ :=
  let v2 := rotInverse raPointing decPointing (unitVec lon lat)
  let cc := Real.sqrt (v2.1 * v2.1 + v2.2.1 * v2.2.1)
  let decOut := arctan2 v2.2.2 cc
  (scalarRaFromRatio (ratioOfVec v2 decOut) v2.1 v2.2.1, decOut)

/-!
## Spherical/Cartesian transforms (`CoordinateTransformations.py`)

`cartesianFromSpherical` demands `numpy.ndarray` inputs and raises a
`RuntimeError` otherwise; `sphericalFromCartesian` likewise demands an
array, and dispatches on its dimensionality (2-d: one point per row;
1-d: a single point).
-/

/-- Per-point body of `cartesianFromSpherical`. -/
def cartFromSphElem (longitude latitude : ℝ) : ℝ × ℝ × ℝ :=
  let cosDec := Real.cos latitude
  (Real.cos longitude * cosDec, Real.sin longitude * cosDec, Real.sin latitude)

/-- Elementwise product of two 1-d numpy arrays under numpy broadcasting:
equal lengths multiply pointwise, a length-1 operand is stretched to the
other length, and any other length mismatch raises a broadcast
`ValueError`. -/
def npBroadcastMul (xs ys : List ℝ) : Except String (List ℝ) :=
  if xs.length = ys.length then
    Except.ok ((xs.zip ys).map fun p => p.1 * p.2)
  else if xs.length = 1 then
    Except.ok (ys.map fun y => xs.headD 0 * y)
  else if ys.length = 1 then
    Except.ok (xs.map fun x => x * ys.headD 0)
  else
    Except.error "ValueError: operands could not be broadcast together"

/-- Stacking `numpy.array([xs, ys, zs]).transpose()`: one point per row
when the three rows have equal length; rows of unequal length do not form
a numeric 2-d array (numpy rejects the inhomogeneous shape). -/
def npStack3 (xs ys zs : List ℝ) : Except String (List (ℝ × ℝ × ℝ)) :=
  if xs.length = ys.length ∧ ys.length = zs.length then
    Except.ok (((xs.zip ys).zip zs).map fun p => (p.1.1, p.1.2, p.2))
  else
    Except.error "ValueError: setting an array element with a sequence"

/-- `cartesianFromSpherical(longitude, latitude)` with the isinstance
guard (source lines 158-159), then `cosDec = numpy.cos(latitude)`, the
broadcast products `numpy.cos(longitude)*cosDec`,
`numpy.sin(longitude)*cosDec` and `numpy.sin(latitude)`, stacked and
transposed (source lines 161-164). -/
def cartesianFromSpherical (longitude latitude : NpVal) :
    Except String (List (ℝ × ℝ × ℝ)) :=
  match longitude, latitude with
  | NpVal.arr ls, NpVal.arr bs =>
      let cosDec := bs.map Real.cos
      match npBroadcastMul (ls.map Real.cos) cosDec,
            npBroadcastMul (ls.map Real.sin) cosDec with
      | Except.ok xs, Except.ok ys => npStack3 xs ys (bs.map Real.sin)
      | Except.error e, _ => Except.error e
      | _, Except.error e => Except.error e
  | _, _ =>
      Except.error "you need to pass numpy arrays to cartesianFromSpherical"

/-- Per-point body of `sphericalFromCartesian`. At the zero vector the
source divides `0.0/0.0`, so the latitude is an IEEE NaN, modelled as
`none` (`numpy.arctan2(0, 0)` itself is `0`). -/
def sphFromCartElem (p : ℝ × ℝ × ℝ) : ℝ × Option ℝ :=
  let rad := Real.sqrt (p.1 * p.1 + p.2.1 * p.2.1 + p.2.2 * p.2.2)
  (arctan2 p.2.1 p.1,
    if rad = 0 then none else some (Real.arcsin (p.2.2 / rad)))

/-- The argument of `sphericalFromCartesian`: a 2-d array of points, a
1-d array (one point), or a non-array value. -/
inductive XyzInput where
  | rows : List (ℝ × ℝ × ℝ) → XyzInput
  | single : ℝ × ℝ × ℝ → XyzInput
  | notArray : XyzInput

/-- `sphericalFromCartesian(xyz)` with the source's isinstance guard and
dimensionality dispatch (source lines 179-191). -/
def sphericalFromCartesian (xyz : XyzInput) :
    Except String (List (ℝ × Option ℝ)) :=
  match xyz with
  | XyzInput.rows ps => Except.ok (ps.map sphFromCartElem)
  | XyzInput.single p => Except.ok [sphFromCartElem p]
  | XyzInput.notArray =>
      Except.error "you need to pass a numpy array to sphericalFromCartesian"

/-!
## Pupil projection (`FocalPlaneUtils.py`)

`palpy.ds2tp` (the gnomonic projection primitive, which raises a domain
error for targets too far from the tangent point) and the observed-frame
service `_observedFromICRS` are external; the embedding takes them as
parameters.  `none` in a result encodes the NaN pair the source writes
for a failed element.
-/

variable (ds2tp : ℝ → ℝ → ℝ → ℝ → Except Unit (ℝ × ℝ))
variable (obsFromICRS : ℝ → ℝ → ℝ × ℝ)

/-- `palpy.ds2tpVector`: the batched projection fails (raises) exactly
when some element is improper; on success it returns the per-element
projections. -/
def ds2tpVector (pts : List (ℝ × ℝ)) (rp dp : ℝ) : Except Unit (List (ℝ × ℝ)) :=
  match pts with
  | [] => Except.ok []
  | p :: rest =>
      match ds2tp p.1 p.2 rp dp, ds2tpVector rest rp dp with
      | Except.ok v, Except.ok vs => Except.ok (v :: vs)
      | Except.ok _, Except.error e => Except.error e
      | Except.error e, _ => Except.error e

/-- The sign flip `x *= -1` followed by the rotation by `rotSkyPos`
(source lines 137-144). -/
def pupilRotate (theta : ℝ) (p : ℝ × ℝ) : ℝ × ℝ :=
  let x := -1.0 * p.1
  (x * Real.cos theta - p.2 * Real.sin theta,
   x * Real.sin theta + p.2 * Real.cos theta)

/-- `_pupilCoordsFromRaDec` (scalar path): observed coordinates for the
target and the pointing, one `ds2tp` call (NaN pair on failure), sign
flip and rotation.  NaN propagates through the arithmetic, hence
`Option.map`. -/
def pupilCoordsScalar (ra dec rp dp theta : ℝ) : Option (ℝ × ℝ) :=
  let o := obsFromICRS ra dec
  let pt := obsFromICRS rp dp
  let xy : Option (ℝ × ℝ) :=
    match ds2tp o.1 o.2 pt.1 pt.2 with
    | Except.ok v => some v
    | Except.error _ => none
  xy.map (pupilRotate theta)

/-- `_pupilCoordsFromRaDec` (batched path, source lines 112-129): first
try `ds2tpVector`; if it raises, redo the projection elementwise, writing
the NaN pair for each failing element; then flip and rotate each
element. -/
def pupilCoordsBatch (ras decs : List ℝ) (rp dp theta : ℝ) :
    List (Option (ℝ × ℝ)) :=
  let obs := (ras.zip decs).map fun p => obsFromICRS p.1 p.2
  let pt := obsFromICRS rp dp
  let xy : List (Option (ℝ × ℝ)) :=
    match ds2tpVector ds2tp obs pt.1 pt.2 with
    | Except.ok vals => vals.map some
    | Except.error _ =>
        obs.map fun p =>
          match ds2tp p.1 p.2 pt.1 pt.2 with
          | Except.ok v => some v
          | Except.error _ => none
  xy.map (Option.map (pupilRotate theta))

end

/-!
## Time transformations (`timeTransformations.py`)

These are pure field arithmetic (no transcendental functions), so they
are embedded over `ℚ` and stay executable.  The external leap-second
service `palpy.dat` is modelled as the documented TAI-UTC step table
(the spec describes this collaborator as a monotonic step function; the
post-1972 integer leap steps are used, the pre-table era taking the
first value).  The `Ut1MinusUtcData` / `TT_from_TAI_Data` lookup tables
are construction-time data and are taken as parameters.
-/

/-- Step-table lookup: the value of the last entry whose boundary is at
most `u`, else the running default. -/
def datLookup : ℚ → List (ℚ × ℚ) → ℚ → ℚ
  | d, [], _ => d
  | d, (b, v) :: rest, u => if u < b then d else datLookup v rest u

/-- The TAI-UTC leap-second table: `(boundary MJD, TAI-UTC seconds)`,
effective from each boundary on.  Values corroborated by the repository's
own `testTimeTransformations.py` control data (e.g. 13 s in 1974, 22 s in
1984, 28 s in 1994, 30 s in 1997, 32 s in 2003, 35 s in 2013). -/
def leapTable : List (ℚ × ℚ) :=
  [(41317, 10), (41499, 11), (41683, 12), (42048, 13), (42413, 14),
   (42778, 15), (43144, 16), (43509, 17), (43874, 18), (44239, 19),
   (44786, 20), (45151, 21), (45516, 22), (46247, 23), (47161, 24),
   (47892, 25), (48257, 26), (48804, 27), (49169, 28), (49534, 29),
   (50083, 30), (50630, 31), (51179, 32), (53736, 33), (54832, 34),
   (56109, 35), (57204, 36), (57754, 37)]

/-- `palpy.dat(utc)`: TAI-UTC in seconds. -/
def palDat (utc : ℚ) : ℚ := datLookup 10 leapTable utc

/-- `taiFromUtc(utc) = utc + palpy.dat(utc)/86400`. -/
def taiFromUtc (utc : ℚ) : ℚ := utc + palDat utc / 86400

/-- `numpy.arange(start, stop, step)` for positive `step`:
`start + k*step` for `k < ceil((stop-start)/step)`. -/
def npArange (start stop step : ℚ) : List ℚ :=
  (List.range (⌈(stop - start) / step⌉).toNat).map fun k : ℕ =>
    start + (k : ℚ) * step

/-- `numpy.interp x xp fp`, on the list of `(xp, fp)` pairs: clamps to
the first/last `fp` outside the sample range, linear interpolation on the
bracketing segment inside. -/
def npInterp (x : ℚ) : List (ℚ × ℚ) → ℚ
  | [] => 0
  | [(_, f0)] => f0
  | (x0, f0) :: (x1, f1) :: rest =>
      if x ≤ x0 then f0
      else if x ≤ x1 then f0 + (x - x0) * (f1 - f0) / (x1 - x0)
      else npInterp x ((x1, f1) :: rest)

/-- `utcFromTai(tai)`: sample a local UTC grid of spacing `1e-6` days
around the approximate inverse, map it through `taiFromUtc`, and invert
by `numpy.interp` against the sampled TAI values. -/
def utcFromTai (tai : ℚ) : ℚ :=
  let dtApprox := palDat tai * (1 / 86400)
  let utcArr := npArange (tai - 1 * dtApprox) (tai + 1 * dtApprox) (1 / 1000000)
  npInterp tai (utcArr.map fun u => (taiFromUtc u, u))

/-- The out-of-bounds warning text of `dutFromUtc`. -/
def dutWarning : String :=
  "We will return UT1-UTC = 0, for lack of a better idea"

/-- `dutFromUtc(utc)` over the (parameterised) `Ut1MinusUtcData` table:
UT1-UTC in seconds, paired with the list of warnings the call emits. -/
def dutFromUtc (mjdArr dutArr : List ℚ) (utc : ℚ) : ℚ × List String :=
  if utc < mjdArr.headD 0 ∨ mjdArr.getLastD 0 < utc then
    (0, [dutWarning])
  else
    (npInterp utc (mjdArr.zip dutArr), [])

/-- `dttFromUtc(utc)` over the (parameterised) `TT_from_TAI_Data` table:
TT-TAI in seconds, paired with the warnings the call emits (the source
emits none on any path). -/
def dttFromUtc (mjdArr dtArr : List ℚ) (utc : ℚ) : ℚ × List String :=
  let dt : ℚ :=
    if 57019 < utc then 27697 / 1000
    else if utc < 42589 then 0
    else npInterp utc (mjdArr.zip dtArr)
  (32184 / 1000 + dt * (1 / 1000000), [])

/-!
## Theorems

Batteries marks the `Rat` field operations irreducible; the embedded time
code is executable rational arithmetic, so they are unsealed locally for
evaluation by `decide`.
-/

attribute [local semireducible] Rat.add Rat.mul Rat.inv Rat.sub Rat.ofScientific

theorem pymod_eq_fract {y : ℝ} (x : ℝ) (hy : y ≠ 0) :
    pymod x y = y * Int.fract (x / y) := by
  unfold pymod Int.fract
  field_simp

theorem pymod_nonneg {y : ℝ} (x : ℝ) (hy : 0 < y) : 0 ≤ pymod x y := by
  rw [pymod_eq_fract x hy.ne.symm]
  exact mul_nonneg hy.le (Int.fract_nonneg _)

theorem pymod_lt {y : ℝ} (x : ℝ) (hy : 0 < y) : pymod x y < y := by
  rw [pymod_eq_fract x hy.ne.symm]
  calc y * Int.fract (x / y) < y * 1 :=
        (mul_lt_mul_left hy).2 (Int.fract_lt_one _)
    _ = y := mul_one y

theorem pymod_add_left {y : ℝ} (x b : ℝ) (hy : y ≠ 0) :
    pymod (pymod x y + b) y = pymod (x + b) y := by
  unfold pymod
  have h : (x - y * ⌊x / y⌋ + b) / y = (x + b) / y - (⌊x / y⌋ : ℝ) := by
    field_simp
    ring
  rw [h]
  rw [show (x + b) / y - ((⌊x / y⌋ : ℤ) : ℝ) = (x + b) / y - ((⌊x / y⌋ : ℤ) : ℝ) from rfl,
      Int.floor_sub_int]
  push_cast
  ring

theorem two_pi_pos : (0 : ℝ) < 2.0 * Real.pi := mul_pos (by norm_num) Real.pi_pos

/-- C3: for every scalar input, `getRotSkyPos` returns
`(rotTelRad - parallacticAngle + pi) mod 2 pi` and `getRotTelPos` returns
`(rotSkyRad + parallacticAngle) mod 2 pi`, where the parallactic angle is
the one `raDecToAltAzPa` computes for the same `(ra, dec, long, lat, mjd)`;
both results lie in `[0, 2 pi)` for every input, including negative or
greater-than-one-cycle rotator angles. -/
theorem C3_rotator_conventions
    (palGmsta : ℝ → ℝ → ℝ) (palEqeqx : ℝ → ℝ) (palAltaz : ℝ → ℝ → ℝ → ℝ × ℝ × ℝ)
    (raRad decRad longRad latRad mjd rotTelRad rotSkyRad : ℝ) :
    getRotSkyPos palGmsta palEqeqx palAltaz raRad decRad longRad latRad mjd rotTelRad =
      pymod (rotTelRad -
        (raDecToAltAzPa palGmsta palEqeqx palAltaz raRad decRad longRad latRad mjd).2.2
        + Real.pi) (2.0 * Real.pi) ∧
    getRotTelPos palGmsta palEqeqx palAltaz raRad decRad longRad latRad mjd rotSkyRad =
      pymod (rotSkyRad +
        (raDecToAltAzPa palGmsta palEqeqx palAltaz raRad decRad longRad latRad mjd).2.2)
        (2.0 * Real.pi) ∧
    (0 ≤ getRotSkyPos palGmsta palEqeqx palAltaz raRad decRad longRad latRad mjd rotTelRad ∧
      getRotSkyPos palGmsta palEqeqx palAltaz raRad decRad longRad latRad mjd rotTelRad
        < 2.0 * Real.pi) ∧
    (0 ≤ getRotTelPos palGmsta palEqeqx palAltaz raRad decRad longRad latRad mjd rotSkyRad ∧
      getRotTelPos palGmsta palEqeqx palAltaz raRad decRad longRad latRad mjd rotSkyRad
        < 2.0 * Real.pi) := by
  refine ⟨rfl, rfl, ⟨?_, ?_⟩, ⟨?_, ?_⟩⟩ <;>
    first
      | exact pymod_nonneg _ two_pi_pos
      | exact pymod_lt _ two_pi_pos

/-- C10: composing the two rotator conversions does not recover the input:
for every scalar input, `getRotTelPos` applied to the output of
`getRotSkyPos` at the same arguments returns `(rotTelRad + pi) mod 2 pi`,
a shift by exactly `pi`. -/
theorem C10_rotator_round_trip_shifts_by_pi
    (palGmsta : ℝ → ℝ → ℝ) (palEqeqx : ℝ → ℝ) (palAltaz : ℝ → ℝ → ℝ → ℝ × ℝ × ℝ)
    (raRad decRad longRad latRad mjd rotTelRad : ℝ) :
    getRotTelPos palGmsta palEqeqx palAltaz raRad decRad longRad latRad mjd
      (getRotSkyPos palGmsta palEqeqx palAltaz raRad decRad longRad latRad mjd rotTelRad) =
    pymod (rotTelRad + Real.pi) (2.0 * Real.pi) := by
  unfold getRotTelPos getRotSkyPos
  rw [pymod_add_left _ _ two_pi_pos.ne.symm]
  ring_nf

/-- C9: `altAzToRaDec` computes the declination by the spherical law of
cosines and picks the hour-angle branch by the sign of `sin az`: the hour
angle is `-ha0` when `0 <= sin az` and `+ha0` otherwise, with
`ha0 = arccos ((sin alt - sin dec sin lat)/(cos dec cos lat))`, and the
returned RA is `15 deg * LAST` (converted to radians) minus that hour
angle. -/
theorem C9_altaz_inverse_formulas
    (palGmsta : ℝ → ℝ → ℝ) (palEqeqx : ℝ → ℝ)
    (altRad azRad longRad latRad mjd : ℝ) :
    (altAzToRaDec palGmsta palEqeqx altRad azRad longRad latRad mjd).2 =
      Real.arcsin (Real.sin latRad * Real.sin altRad +
        Real.cos latRad * Real.cos altRad * Real.cos azRad) ∧
    (altAzToRaDec palGmsta palEqeqx altRad azRad longRad latRad mjd).1 =
      npRadians ((calcLmstLastScalar palGmsta palEqeqx mjd longRad).2 * 15.0) -
        (if 0 ≤ Real.sin azRad then
          -(Real.arccos ((Real.sin altRad -
              Real.sin ((altAzToRaDec palGmsta palEqeqx altRad azRad longRad latRad mjd).2) *
                Real.sin latRad) /
            (Real.cos ((altAzToRaDec palGmsta palEqeqx altRad azRad longRad latRad mjd).2) *
              Real.cos latRad)))
        else
          Real.arccos ((Real.sin altRad -
              Real.sin ((altAzToRaDec palGmsta palEqeqx altRad azRad longRad latRad mjd).2) *
                Real.sin latRad) /
            (Real.cos ((altAzToRaDec palGmsta palEqeqx altRad azRad longRad latRad mjd).2) *
              Real.cos latRad))) := by
  unfold altAzToRaDec
  refine ⟨rfl, ?_⟩
  by_cases h : 0 ≤ Real.sin azRad <;> (simp [h]; try ring)

/-- C8: `calcLmstLast` longitude broadcasting is one-directional: two
sequences must have equal lengths or the call is rejected; a sequence
`mjd` with a scalar longitude succeeds, applying that same longitude to
every epoch; a scalar `mjd` with a sequence longitude is always
rejected. -/
theorem C8_lmst_broadcast_contract
    (palGmsta : ℝ → ℝ → ℝ) (palEqeqx : ℝ → ℝ) :
    (∀ ms ls : List ℝ, ms.length ≠ ls.length →
      calcLmstLast palGmsta palEqeqx (NpVal.arr ms) (NpVal.arr ls) =
        Except.error "in calcLmstLast mjd and longRad have different lengths") ∧
    (∀ (m : ℝ) (ls : List ℝ),
      calcLmstLast palGmsta palEqeqx (NpVal.scalar m) (NpVal.arr ls) =
        Except.error "in calcLmstLast longRad is numpy array but mjd is not") ∧
    (∀ (ms : List ℝ) (l : ℝ),
      calcLmstLast palGmsta palEqeqx (NpVal.arr ms) (NpVal.scalar l) =
        Except.ok
          (NpVal.arr (ms.map fun m => (calcLmstLastScalar palGmsta palEqeqx m l).1),
           NpVal.arr (ms.map fun m => (calcLmstLastScalar palGmsta palEqeqx m l).2))) := by
  refine ⟨?_, ?_, ?_⟩
  · intro ms ls h
    simp [calcLmstLast, h]
  · intro m ls
    rfl
  · intro ms l
    rfl

/-- C8 witness: concrete instances of the three broadcasting behaviours. -/
theorem C8_lmst_broadcast_contract_witness :
    calcLmstLast (fun _ _ => 0) (fun _ => 0) (NpVal.arr [1, 2]) (NpVal.arr [3]) =
      Except.error "in calcLmstLast mjd and longRad have different lengths" ∧
    calcLmstLast (fun _ _ => 0) (fun _ => 0) (NpVal.scalar 1) (NpVal.arr [3]) =
      Except.error "in calcLmstLast longRad is numpy array but mjd is not" ∧
    calcLmstLast (fun _ _ => 0) (fun _ => 0) (NpVal.arr [1, 2]) (NpVal.scalar 3) =
      Except.ok
        (NpVal.arr ([1, 2].map fun m =>
           (calcLmstLastScalar (fun _ _ => 0) (fun _ => 0) m 3).1),
         NpVal.arr ([1, 2].map fun m =>
           (calcLmstLastScalar (fun _ _ => 0) (fun _ => 0) m 3).2)) :=
  ⟨(C8_lmst_broadcast_contract (fun _ _ => 0) (fun _ => 0)).1 [1, 2] [3] (by decide),
   (C8_lmst_broadcast_contract (fun _ _ => 0) (fun _ => 0)).2.1 1 [3],
   (C8_lmst_broadcast_contract (fun _ _ => 0) (fun _ => 0)).2.2 [1, 2] 3⟩

/-- If the batched projection primitive succeeds, its values are the
per-element successes. -/
theorem ds2tpVector_ok (ds2tp : ℝ → ℝ → ℝ → ℝ → Except Unit (ℝ × ℝ)) (rp dp : ℝ) :
    ∀ (pts : List (ℝ × ℝ)) (vals : List (ℝ × ℝ)),
      ds2tpVector ds2tp pts rp dp = Except.ok vals →
      vals.map some = pts.map fun p => (ds2tp p.1 p.2 rp dp).toOption := by
  intro pts
  induction pts with
  | nil =>
      intro vals h
      simp [ds2tpVector] at h
      subst h
      simp
  | cons p rest ih =>
      intro vals h
      rw [ds2tpVector] at h
      cases hp : ds2tp p.1 p.2 rp dp with
      | error e => rw [hp] at h; exact absurd h (by simp)
      | ok v =>
          rw [hp] at h
          cases hr : ds2tpVector ds2tp rest rp dp with
          | error e => rw [hr] at h; exact absurd h (by simp)
          | ok vs =>
              rw [hr] at h
              simp only [Except.ok.injEq] at h
              subst h
              simp [hp, Except.toOption, ih vs hr]

/-- The batched pupil projection equals the scalar projection applied
elementwise. -/
theorem pupilCoordsBatch_eq_map
    (ds2tp : ℝ → ℝ → ℝ → ℝ → Except Unit (ℝ × ℝ)) (obsFromICRS : ℝ → ℝ → ℝ × ℝ)
    (ras decs : List ℝ) (rp dp theta : ℝ) :
    pupilCoordsBatch ds2tp obsFromICRS ras decs rp dp theta =
      (ras.zip decs).map fun p =>
        pupilCoordsScalar ds2tp obsFromICRS p.1 p.2 rp dp theta := by
  unfold pupilCoordsBatch pupilCoordsScalar
  cases hvec : ds2tpVector ds2tp ((ras.zip decs).map fun p => obsFromICRS p.1 p.2)
      (obsFromICRS rp dp).1 (obsFromICRS rp dp).2 with
  | ok vals =>
      have h := ds2tpVector_ok ds2tp (obsFromICRS rp dp).1 (obsFromICRS rp dp).2 _ _ hvec
      simp only [hvec]
      rw [h]
      simp only [List.map_map]
      refine List.map_congr_left ?_
      intro p _
      simp only [Function.comp]
      cases hds : ds2tp (obsFromICRS p.1 p.2).1 (obsFromICRS p.1 p.2).2
          (obsFromICRS rp dp).1 (obsFromICRS rp dp).2 <;>
        simp [Except.toOption, hds]
  | error e =>
      simp only [hvec]
      simp only [List.map_map]
      rfl

/-- C7: in a batched `_pupilCoordsFromRaDec` call, an element for which
the gnomonic primitive raises a domain error gets the NaN pair, every
other element gets its normal projected (sign-flipped, rotated) value,
and the batched call as a whole always produces a full-length result
rather than aborting. -/
theorem C7_pupil_per_element_failure
    (ds2tp : ℝ → ℝ → ℝ → ℝ → Except Unit (ℝ × ℝ)) (obsFromICRS : ℝ → ℝ → ℝ × ℝ)
    (ras decs : List ℝ) (rp dp theta : ℝ) :
    (pupilCoordsBatch ds2tp obsFromICRS ras decs rp dp theta).length =
      (ras.zip decs).length ∧
    (∀ (i : ℕ) (ra dec : ℝ), (ras.zip decs)[i]? = some (ra, dec) →
      (pupilCoordsBatch ds2tp obsFromICRS ras decs rp dp theta)[i]? =
        some (pupilCoordsScalar ds2tp obsFromICRS ra dec rp dp theta) ∧
      (∀ e, ds2tp (obsFromICRS ra dec).1 (obsFromICRS ra dec).2
          (obsFromICRS rp dp).1 (obsFromICRS rp dp).2 = Except.error e →
        pupilCoordsScalar ds2tp obsFromICRS ra dec rp dp theta = none) ∧
      (∀ v, ds2tp (obsFromICRS ra dec).1 (obsFromICRS ra dec).2
          (obsFromICRS rp dp).1 (obsFromICRS rp dp).2 = Except.ok v →
        pupilCoordsScalar ds2tp obsFromICRS ra dec rp dp theta =
          some (pupilRotate theta v))) := by
  constructor
  · rw [pupilCoordsBatch_eq_map]
    exact List.length_map _ _
  · intro i ra dec hget
    refine ⟨?_, ?_, ?_⟩
    · rw [pupilCoordsBatch_eq_map]
      rw [List.getElem?_map, hget]
      rfl
    · intro e he
      unfold pupilCoordsScalar
      simp [he]
    · intro v hv
      unfold pupilCoordsScalar
      simp [hv]

/-- C7 witness: a two-element batch whose first element fails and whose
second succeeds. -/
theorem C7_pupil_per_element_failure_witness :
    (pupilCoordsBatch
        (fun a _ _ _ => if a = 0 then Except.error () else Except.ok (a, a))
        (fun a b => (a, b)) [0, 1] [0, 1] 2 2 0)[0]? =
      some (pupilCoordsScalar
        (fun a _ _ _ => if a = 0 then Except.error () else Except.ok (a, a))
        (fun a b => (a, b)) 0 0 2 2 0) ∧
    (pupilCoordsBatch
        (fun a _ _ _ => if a = 0 then Except.error () else Except.ok (a, a))
        (fun a b => (a, b)) [0, 1] [0, 1] 2 2 0)[1]? =
      some (pupilCoordsScalar
        (fun a _ _ _ => if a = 0 then Except.error () else Except.ok (a, a))
        (fun a b => (a, b)) 1 1 2 2 0) := by
  constructor
  · exact ((C7_pupil_per_element_failure _ _ [0, 1] [0, 1] 2 2 0).2 0 0 0 (by simp)).1
  · exact ((C7_pupil_per_element_failure _ _ [0, 1] [0, 1] 2 2 0).2 1 1 1 (by simp)).1

/-- Equal-length arrays multiply pointwise under broadcasting. -/
theorem npBroadcastMul_eq_len (xs ys : List ℝ) (h : xs.length = ys.length) :
    npBroadcastMul xs ys = Except.ok ((xs.zip ys).map fun p => p.1 * p.2) := by
  unfold npBroadcastMul
  rw [if_pos h]

/-- A length-1 left operand is stretched across the right operand. -/
theorem npBroadcastMul_one (x : ℝ) (ys : List ℝ) :
    npBroadcastMul [x] ys = Except.ok (ys.map fun y => x * y) := by
  unfold npBroadcastMul
  by_cases h : ([x] : List ℝ).length = ys.length
  · rw [if_pos h]
    rcases List.length_eq_one.mp h.symm with ⟨y, rfl⟩
    simp
  · rw [if_neg h, if_pos (by simp : ([x] : List ℝ).length = 1)]
    simp

/-- A length mismatch with neither operand of length 1 is a broadcast
error. -/
theorem npBroadcastMul_mismatch (xs ys : List ℝ) (h : xs.length ≠ ys.length)
    (h1 : xs.length ≠ 1) (h2 : ys.length ≠ 1) :
    npBroadcastMul xs ys =
      Except.error "ValueError: operands could not be broadcast together" := by
  unfold npBroadcastMul
  rw [if_neg h, if_neg h1, if_neg h2]

/-- Stacking rows of equal length succeeds. -/
theorem npStack3_eq_len (xs ys zs : List ℝ) (h1 : xs.length = ys.length)
    (h2 : ys.length = zs.length) :
    npStack3 xs ys zs =
      Except.ok (((xs.zip ys).zip zs).map fun p => (p.1.1, p.1.2, p.2)) := by
  unfold npStack3
  rw [if_pos ⟨h1, h2⟩]

/-- Transposing three maps over one list gives the per-element triple. -/
theorem zip3_map_same (f g k : ℝ → ℝ) (bs : List ℝ) :
    (((bs.map f).zip (bs.map g)).zip (bs.map k)).map
        (fun p => (p.1.1, p.1.2, p.2)) =
      bs.map fun b => (f b, g b, k b) := by
  induction bs with
  | nil => simp
  | cons b bs ih => simp [ih]

/-- Over equal-length arrays the stacked broadcast products transpose to
the per-point Cartesian triples of `cartFromSphElem`. -/
theorem cart_rows_eq (ls bs : List ℝ) (h : ls.length = bs.length) :
    List.map (fun p => (p.1.1, p.1.2, p.2))
      (((((ls.map Real.cos).zip (bs.map Real.cos)).map fun p => p.1 * p.2).zip
          (((ls.map Real.sin).zip (bs.map Real.cos)).map fun p => p.1 * p.2)).zip
        (bs.map Real.sin)) =
      (ls.zip bs).map fun p => cartFromSphElem p.1 p.2 := by
  induction ls generalizing bs with
  | nil =>
      cases bs with
      | nil => simp
      | cons b bs => simp at h
  | cons a as ih =>
      cases bs with
      | nil => simp at h
      | cons b bs =>
          simp only [List.length_cons] at h
          have h2 : as.length = bs.length := by omega
          simp [ih bs h2, cartFromSphElem]

/-- `cartesianFromSpherical` on equal-length arrays yields the
per-element result. -/
theorem cartesianFromSpherical_eq_len (ls bs : List ℝ)
    (h : ls.length = bs.length) :
    cartesianFromSpherical (NpVal.arr ls) (NpVal.arr bs) =
      Except.ok ((ls.zip bs).map fun p => cartFromSphElem p.1 p.2) := by
  have e1 := npBroadcastMul_eq_len (ls.map Real.cos) (bs.map Real.cos)
    (by simp [h])
  have e2 := npBroadcastMul_eq_len (ls.map Real.sin) (bs.map Real.cos)
    (by simp [h])
  simp only [cartesianFromSpherical, e1, e2]
  rw [npStack3_eq_len _ _ _ (by simp [h]) (by simp [h])]
  rw [cart_rows_eq ls bs h]

/-- `cartesianFromSpherical` on a non-broadcastable length mismatch is
the broadcast `ValueError`. -/
theorem cartesianFromSpherical_mismatch (ls bs : List ℝ)
    (h : ls.length ≠ bs.length) (h1 : ls.length ≠ 1) (h2 : bs.length ≠ 1) :
    cartesianFromSpherical (NpVal.arr ls) (NpVal.arr bs) =
      Except.error "ValueError: operands could not be broadcast together" := by
  have e1 := npBroadcastMul_mismatch (ls.map Real.cos) (bs.map Real.cos)
    (by simpa using h) (by simpa using h1) (by simpa using h2)
  have e2 := npBroadcastMul_mismatch (ls.map Real.sin) (bs.map Real.cos)
    (by simpa using h) (by simpa using h1) (by simpa using h2)
  simp only [cartesianFromSpherical, e1, e2]

/-- A length-1 longitude array is broadcast across the latitudes. -/
theorem cartesianFromSpherical_bcast_one (a : ℝ) (bs : List ℝ) :
    cartesianFromSpherical (NpVal.arr [a]) (NpVal.arr bs) =
      Except.ok (bs.map fun b => cartFromSphElem a b) := by
  have e1 := npBroadcastMul_one (Real.cos a) (bs.map Real.cos)
  have e2 := npBroadcastMul_one (Real.sin a) (bs.map Real.cos)
  simp only [cartesianFromSpherical, List.map_cons, List.map_nil, e1, e2]
  rw [npStack3_eq_len _ _ _ (by simp) (by simp)]
  rw [List.map_map, List.map_map, zip3_map_same]
  simp [Function.comp, cartFromSphElem]

/-- C6 counterexample: the claim says a scalar input to
`cartesianFromSpherical` is not rejected; the code rejects it with a
`RuntimeError`. -/
theorem C6_scalar_rejected_counterexample :
    cartesianFromSpherical (NpVal.scalar 1) (NpVal.scalar 1) =
      Except.error "you need to pass numpy arrays to cartesianFromSpherical" ∧
    sphericalFromCartesian XyzInput.notArray =
      Except.error "you need to pass a numpy array to sphericalFromCartesian" :=
  ⟨rfl, rfl⟩

/-- C6 (amended): `cartesianFromSpherical` and `sphericalFromCartesian`
accept only numpy-array inputs - scalars (non-arrays) are rejected with a
`RuntimeError` - and on arrays follow numpy broadcasting: equal lengths
give the per-element spherical/Cartesian values, a length-1 longitude is
broadcast across the latitudes, and a non-broadcastable length mismatch
is rejected with a broadcast `ValueError`, never silently truncated. -/
theorem C6_array_only_contract :
    (∀ ls bs : List ℝ, ls.length = bs.length →
      cartesianFromSpherical (NpVal.arr ls) (NpVal.arr bs) =
        Except.ok ((ls.zip bs).map fun p => cartFromSphElem p.1 p.2)) ∧
    (∀ ls bs : List ℝ, ls.length ≠ bs.length → ls.length ≠ 1 →
      bs.length ≠ 1 →
      cartesianFromSpherical (NpVal.arr ls) (NpVal.arr bs) =
        Except.error "ValueError: operands could not be broadcast together") ∧
    (∀ (a : ℝ) (bs : List ℝ),
      cartesianFromSpherical (NpVal.arr [a]) (NpVal.arr bs) =
        Except.ok (bs.map fun b => cartFromSphElem a b)) ∧
    (∀ a b : ℝ,
      cartesianFromSpherical (NpVal.scalar a) (NpVal.scalar b) =
        Except.error "you need to pass numpy arrays to cartesianFromSpherical") ∧
    (∀ (a : ℝ) (bs : List ℝ),
      cartesianFromSpherical (NpVal.scalar a) (NpVal.arr bs) =
        Except.error "you need to pass numpy arrays to cartesianFromSpherical") ∧
    (∀ ps : List (ℝ × ℝ × ℝ),
      sphericalFromCartesian (XyzInput.rows ps) =
        Except.ok (ps.map sphFromCartElem)) ∧
    (∀ p : ℝ × ℝ × ℝ,
      sphericalFromCartesian (XyzInput.single p) =
        Except.ok [sphFromCartElem p]) ∧
    sphericalFromCartesian XyzInput.notArray =
      Except.error "you need to pass a numpy array to sphericalFromCartesian" :=
  ⟨cartesianFromSpherical_eq_len, cartesianFromSpherical_mismatch,
   cartesianFromSpherical_bcast_one, fun _ _ => rfl, fun _ _ => rfl,
   fun _ => rfl, fun _ => rfl, rfl⟩

/-- Concrete instances of the C6 contract: equal-length arrays produce
per-element output, a 2-vs-3 mismatch is the broadcast error, and a
length-1 longitude is broadcast. -/
theorem C6_array_only_contract_witness :
    (([1, 2] : List ℝ).length = ([0, 3] : List ℝ).length ∧
      cartesianFromSpherical (NpVal.arr [1, 2]) (NpVal.arr [0, 3]) =
        Except.ok (([(1, 0), (2, 3)] : List (ℝ × ℝ)).map fun p =>
          cartFromSphElem p.1 p.2)) ∧
    (([1, 2] : List ℝ).length ≠ ([0, 3, 4] : List ℝ).length ∧
      cartesianFromSpherical (NpVal.arr [1, 2]) (NpVal.arr [0, 3, 4]) =
        Except.error "ValueError: operands could not be broadcast together") ∧
    cartesianFromSpherical (NpVal.arr [1]) (NpVal.arr [0, 3]) =
      Except.ok (([0, 3] : List ℝ).map fun b => cartFromSphElem 1 b) := by
  refine ⟨⟨rfl, ?_⟩, ⟨by decide, ?_⟩, ?_⟩
  · have e := C6_array_only_contract.1 [1, 2] [0, 3] rfl
    simpa using e
  · exact C6_array_only_contract.2.1 [1, 2] [0, 3, 4] (by decide) (by decide)
      (by decide)
  · exact C6_array_only_contract.2.2.1 1 [0, 3]

/-- C2 counterexample: an out-of-domain `dttFromUtc` query (UTC = 42588,
below the table lower bound 42589, the repository test's own probe value)
returns the clamped fallback `32.1840` s but emits no warning at all,
where the claim requires exactly one recoverable warning. -/
theorem C2_dtt_no_warning_counterexample :
    dttFromUtc [42589, 57019] [0, 27697 / 1000] 42588 = (32184 / 1000, []) ∧
    ([] : List String).length ≠ 1 := by
  constructor
  · unfold dttFromUtc
    norm_num
  · decide

/-- C2 (amended): out-of-domain `dutFromUtc` queries return `0` with
exactly one recoverable warning; out-of-domain `dttFromUtc` queries
return the clamped fallback (`32.184` s below the table, `32.184` s +
`27.697` microseconds above it) but emit no warning. -/
theorem C2_out_of_range_fallbacks
    (mjdArr dutArr mjdArr2 dtArr2 : List ℚ) (utc : ℚ) :
    (utc < mjdArr.headD 0 ∨ mjdArr.getLastD 0 < utc →
      dutFromUtc mjdArr dutArr utc = (0, [dutWarning])) ∧
    (utc < 42589 →
      dttFromUtc mjdArr2 dtArr2 utc = (32184 / 1000, [])) ∧
    (57019 < utc →
      dttFromUtc mjdArr2 dtArr2 utc =
        (32184 / 1000 + (27697 / 1000) * (1 / 1000000), [])) := by
  refine ⟨?_, ?_, ?_⟩
  · intro h
    unfold dutFromUtc
    rw [if_pos h]
  · intro h
    unfold dttFromUtc
    rw [if_neg (by linarith), if_pos h]
    norm_num
  · intro h
    unfold dttFromUtc
    rw [if_pos h]

/-- C2 witness: the amended behaviour at the concrete probe values of the
repository's own tests (48619.5 below the UT1-UTC table, 42588 and 57020
around the TT-TAI table). -/
theorem C2_out_of_range_fallbacks_witness :
    dutFromUtc [48622, 57711] [0, 0] (48619 + 1 / 2) = (0, [dutWarning]) ∧
    dttFromUtc [42589, 57019] [0, 27697 / 1000] 42588 = (32184 / 1000, []) ∧
    dttFromUtc [42589, 57019] [0, 27697 / 1000] 57020 =
      (32184 / 1000 + (27697 / 1000) * (1 / 1000000), []) :=
  ⟨(C2_out_of_range_fallbacks [48622, 57711] [0, 0] [] [] (48619 + 1 / 2)).1
      (Or.inl (by norm_num)),
   (C2_out_of_range_fallbacks [] [] [42589, 57019] [0, 27697 / 1000] 42588).2.1
      (by norm_num),
   (C2_out_of_range_fallbacks [] [] [42589, 57019] [0, 27697 / 1000] 57020).2.2
      (by norm_num)⟩

/-- C1: at an `arccos` argument pushed outside `[-1, 1]` (here `_y = -2`,
with `v2 = (0, -1, _)` so the offending component is negative), the
batched path of `_nativeLonLatFromRaDec` applies the documented sign
tie-break and yields `pi` (and `0` for a non-negative `_y = 2` with
`v2[1] = 1`), but the scalar path raises a `TypeError` instead of
applying the same tie-break: the NaN fix stores a builtin Python float in
`_ra`, so the `type(_ra) is numpy.float64` dispatch falls into the array
branch whose `zip` over a scalar raises.  The inverse transform
`_raDecFromNativeLonLat` moreover maps the same NaN to `0` regardless of
sign on both of its paths. -/
theorem C1_nan_tie_break_divergence :
    scalarLonFromRatio (some (-2)) 0 (-1) = Except.error "TypeError" ∧
    batchLonFromRatio (some (-2)) 0 (-1) = Real.pi ∧
    batchLonFromRatio (some 2) 0 1 = 0 ∧
    scalarRaFromRatio (some (-2)) 0 (-1) = 0 ∧
    batchRaFromRatio (some (-2)) 0 (-1) = 0 := by
  have habs2 : (1 : ℝ) < |(-2 : ℝ)| := by norm_num
  have hs2 : nsign (-2 : ℝ) = -1 := by unfold nsign; norm_num
  have hs1 : nsign (-1 : ℝ) = -1 := by unfold nsign; norm_num
  have hp2 : nsign (2 : ℝ) = 1 := by unfold nsign; norm_num
  have hp1 : nsign (1 : ℝ) = 1 := by unfold nsign; norm_num
  have hs0 : nsign (0 : ℝ) = 0 := by unfold nsign; norm_num
  refine ⟨?_, ?_, ?_, ?_, ?_⟩
  · simp only [scalarLonFromRatio]
    rw [if_pos habs2]
  · simp only [batchLonFromRatio]
    rw [if_pos habs2, hs2]
    rw [show (0.5 : ℝ) * Real.pi * (1.0 - -1) = Real.pi by ring]
    simp only [lonFlip, Real.sin_pi, neg_zero, hs2, hs1, hs0, abs_zero]
    norm_num
  · simp only [batchLonFromRatio]
    rw [if_pos (by norm_num : (1 : ℝ) < |(2 : ℝ)|), hp2]
    rw [show (0.5 : ℝ) * Real.pi * (1.0 - 1) = 0 by ring]
    simp only [lonFlip, Real.sin_zero, neg_zero, hp2, hp1, hs0, abs_zero]
    norm_num
  · simp only [scalarRaFromRatio]
    rw [if_pos habs2]
  · simp only [batchRaFromRatio]
    rw [if_pos habs2]

theorem unitVec_norm (a b : ℝ) :
    (unitVec a b).1 ^ 2 + (unitVec a b).2.1 ^ 2 + (unitVec a b).2.2 ^ 2 = 1 := by
  simp only [unitVec]
  linear_combination (Real.cos b) ^ 2 * Real.sin_sq_add_cos_sq a +
    Real.sin_sq_add_cos_sq b

theorem rotForward_norm (rp dp : ℝ) (v : ℝ × ℝ × ℝ) :
    (rotForward rp dp v).1 ^ 2 + (rotForward rp dp v).2.1 ^ 2 +
      (rotForward rp dp v).2.2 ^ 2 = v.1 ^ 2 + v.2.1 ^ 2 + v.2.2 ^ 2 := by
  obtain ⟨x, y, z⟩ := v
  simp only [rotForward]
  linear_combination
    ((Real.sin (-1.0 * rp) * x + Real.cos (-1.0 * rp) * y) ^ 2 + z ^ 2) *
      Real.sin_sq_add_cos_sq (dp - 0.5 * Real.pi) +
    (x ^ 2 + y ^ 2) * Real.sin_sq_add_cos_sq (-1.0 * rp)

theorem rotInverse_norm (rp dp : ℝ) (v : ℝ × ℝ × ℝ) :
    (rotInverse rp dp v).1 ^ 2 + (rotInverse rp dp v).2.1 ^ 2 +
      (rotInverse rp dp v).2.2 ^ 2 = v.1 ^ 2 + v.2.1 ^ 2 + v.2.2 ^ 2 := by
  obtain ⟨x, y, z⟩ := v
  simp only [rotInverse]
  linear_combination
    (x ^ 2 + (Real.cos (0.5 * Real.pi - dp) * y + Real.sin (0.5 * Real.pi - dp) * z) ^ 2) *
      Real.sin_sq_add_cos_sq rp +
    (y ^ 2 + z ^ 2) * Real.sin_sq_add_cos_sq (0.5 * Real.pi - dp)

theorem rotInverse_rotForward (rp dp : ℝ) (v : ℝ × ℝ × ℝ) :
    rotInverse rp dp (rotForward rp dp v) = v := by
  obtain ⟨x, y, z⟩ := v
  have e1 : Real.cos (0.5 * Real.pi - dp) = Real.cos (dp - 0.5 * Real.pi) := by
    rw [show 0.5 * Real.pi - dp = -(dp - 0.5 * Real.pi) by ring, Real.cos_neg]
  have e2 : Real.sin (0.5 * Real.pi - dp) = -Real.sin (dp - 0.5 * Real.pi) := by
    rw [show 0.5 * Real.pi - dp = -(dp - 0.5 * Real.pi) by ring, Real.sin_neg]
  have e3 : Real.cos (-1.0 * rp) = Real.cos rp := by
    rw [show (-1.0 : ℝ) * rp = -rp by ring, Real.cos_neg]
  have e4 : Real.sin (-1.0 * rp) = -Real.sin rp := by
    rw [show (-1.0 : ℝ) * rp = -rp by ring, Real.sin_neg]
  have h1 := Real.sin_sq_add_cos_sq (dp - 0.5 * Real.pi)
  have h2 := Real.sin_sq_add_cos_sq rp
  simp only [rotForward, rotInverse, e1, e2, e3, e4, Prod.mk.injEq]
  set ca := Real.cos (dp - 0.5 * Real.pi)
  set sa := Real.sin (dp - 0.5 * Real.pi)
  set c := Real.cos rp
  set s := Real.sin rp
  refine ⟨?_, ?_, ?_⟩
  · linear_combination x * h2 + (s ^ 2 * x - s * c * y) * h1
  · linear_combination y * h2 + (c ^ 2 * y - c * s * x) * h1
  · linear_combination z * h1

/-- Shifting the first coordinate of the input of `rotInverse` shifts the
output linearly along `(cos rp, sin rp, 0)`. -/
theorem rotInverse_shift_first (rp dp p q r d : ℝ) :
    rotInverse rp dp (p + d, q, r) =
      ((rotInverse rp dp (p, q, r)).1 + Real.cos rp * d,
       (rotInverse rp dp (p, q, r)).2.1 + Real.sin rp * d,
       (rotInverse rp dp (p, q, r)).2.2) := by
  simp only [rotInverse, Prod.mk.injEq]
  exact ⟨by ring, by ring, trivial⟩

theorem nsign_of_neg {r : ℝ} (h : r < 0) : nsign r = -1 := by
  unfold nsign
  rw [if_pos h]

theorem nsign_of_pos {r : ℝ} (h : 0 < r) : nsign r = 1 := by
  unfold nsign
  rw [if_neg (not_lt.mpr h.le), if_neg h.ne.symm]

theorem nsign_zero : nsign (0 : ℝ) = 0 := by
  unfold nsign
  norm_num

theorem nsign_div_pos (a : ℝ) {c : ℝ} (hc : 0 < c) : nsign (a / c) = nsign a := by
  rcases lt_trichotomy a 0 with h | h | h
  · rw [nsign_of_neg h, nsign_of_neg (div_neg_of_neg_of_pos h hc)]
  · rw [h, zero_div]
  · rw [nsign_of_pos h, nsign_of_pos (div_pos h hc)]

theorem arctan2_cos_eq {y x : ℝ} (hx : 0 < x)
    (habs : Real.sqrt (x * x + y * y) = 1) :
    Real.cos (arctan2 y x) = x := by
  unfold arctan2
  have hz : ({ re := x, im := y } : ℂ) ≠ 0 := by
    intro h
    rw [Complex.ext_iff] at h
    exact hx.ne.symm h.1
  rw [Complex.cos_arg hz]
  show x / Complex.abs { re := x, im := y } = x
  rw [Complex.abs_apply, Complex.normSq_mk, habs, div_one]

theorem arctan2_sin_eq {y x : ℝ} (habs : Real.sqrt (x * x + y * y) = 1) :
    Real.sin (arctan2 y x) = y := by
  unfold arctan2
  rw [Complex.sin_arg]
  show y / Complex.abs { re := x, im := y } = y
  rw [Complex.abs_apply, Complex.normSq_mk, habs, div_one]

/-- Extraction of a longitude/latitude pair from a unit vector by the
source's `arctan2` / `arccos`-with-quadrant-flip machinery: the latitude
is exact, the `y`-ish component is exact, and the `x`-ish component is
recovered to within `2e-9` (the sign flip is suppressed when the implied
sine candidate is below the `1e-9` threshold). -/
theorem extract_spherical (p q r : ℝ) (hnorm : p ^ 2 + q ^ 2 + r ^ 2 = 1)
    (hpq : ¬(p = 0 ∧ q = 0)) :
    Real.cos (arctan2 r (Real.sqrt (p * p + q * q))) = Real.sqrt (p * p + q * q) ∧
    Real.sin (arctan2 r (Real.sqrt (p * p + q * q))) = r ∧
    0 < Real.sqrt (p * p + q * q) ∧
    |q / Real.sqrt (p * p + q * q)| ≤ 1 ∧
    Real.sqrt (p * p + q * q) *
      Real.cos (lonFlip (Real.arccos (q / Real.sqrt (p * p + q * q)))
        (q / Real.sqrt (p * p + q * q)) p q) = q ∧
    |(-1.0) * Real.sqrt (p * p + q * q) *
      Real.sin (lonFlip (Real.arccos (q / Real.sqrt (p * p + q * q)))
        (q / Real.sqrt (p * p + q * q)) p q) - p| ≤ 2 / 1000000000 := by
  have hsum : 0 < p * p + q * q := by
    rcases not_and_or.mp hpq with h | h
    · exact add_pos_of_pos_of_nonneg (mul_self_pos.mpr h) (mul_self_nonneg q)
    · exact add_pos_of_nonneg_of_pos (mul_self_nonneg p) (mul_self_pos.mpr h)
  set cc := Real.sqrt (p * p + q * q) with hccdef
  have hccpos : 0 < cc := Real.sqrt_pos.mpr hsum
  have hccsq : cc ^ 2 = p * p + q * q := Real.sq_sqrt hsum.le
  have hccle : cc ≤ 1 := by
    rw [hccdef]
    exact Real.sqrt_le_one.mpr (by nlinarith [sq_nonneg r])
  have habs1 : Real.sqrt (cc * cc + r * r) = 1 := by
    have h : cc * cc + r * r = 1 := by nlinarith
    rw [h, Real.sqrt_one]
  have hcos : Real.cos (arctan2 r cc) = cc := arctan2_cos_eq hccpos habs1
  have hsin : Real.sin (arctan2 r cc) = r := arctan2_sin_eq habs1
  have hqle : |q| ≤ cc := by
    rw [← Real.sqrt_sq_eq_abs, hccdef]
    exact Real.sqrt_le_sqrt (by nlinarith)
  have hy : |q / cc| ≤ 1 := by
    rw [abs_div, abs_of_pos hccpos]
    exact (div_le_one hccpos).mpr hqle
  have hyy := abs_le.mp hy
  have hcosra : Real.cos (Real.arccos (q / cc)) = q / cc :=
    Real.cos_arccos hyy.1 hyy.2
  have hsinra : Real.sin (Real.arccos (q / cc)) = |p| / cc := by
    rw [Real.sin_arccos]
    have h1 : 1 - (q / cc) ^ 2 = p ^ 2 / cc ^ 2 := by
      field_simp
      nlinarith
    rw [h1, Real.sqrt_div (sq_nonneg p), Real.sqrt_sq_eq_abs, Real.sqrt_sq_eq_abs,
      abs_of_pos hccpos]
  have hnsy : nsign (q / cc) = nsign q := nsign_div_pos q hccpos
  have hccq : cc * (q / cc) = q := mul_div_cancel₀ q hccpos.ne.symm
  have habsx : |(-(|p| / cc))| = |p| / cc := by
    rw [abs_neg, abs_of_nonneg (by positivity)]
  have hcond :
      ((1.0e-9 < |(-Real.sin (Real.arccos (q / cc)))| ∧
          nsign (-Real.sin (Real.arccos (q / cc))) ≠ nsign p) ∨
        (1.0e-9 < |q / cc| ∧ nsign (q / cc) ≠ nsign q)) ↔
      (0 < p ∧ 1.0e-9 < p / cc) := by
    rw [hsinra, hnsy]
    constructor
    · intro h
      rcases h with ⟨h1, h2⟩ | ⟨_, h2⟩
      · rw [habsx] at h1
        rcases lt_trichotomy p 0 with hp | hp | hp
        · exfalso
          apply h2
          rw [nsign_of_neg (neg_neg_of_pos (div_pos (abs_pos.mpr hp.ne) hccpos)),
            nsign_of_neg hp]
        · exfalso
          rw [hp, abs_zero, zero_div] at h1
          norm_num at h1
        · refine ⟨hp, ?_⟩
          rwa [abs_of_pos hp] at h1
      · exact absurd rfl h2
    · rintro ⟨hp, hth⟩
      left
      constructor
      · rw [habsx, abs_of_pos hp]
        exact hth
      · rw [nsign_of_neg (neg_neg_of_pos (div_pos (abs_pos.mpr hp.ne.symm) hccpos)),
          nsign_of_pos hp]
        norm_num
  refine ⟨hcos, hsin, hccpos, hy, ?_, ?_⟩
  · unfold lonFlip
    simp only [hcond]
    by_cases hc : 0 < p ∧ 1.0e-9 < p / cc
    · rw [if_pos hc, show (2.0 : ℝ) * Real.pi = 2 * Real.pi by norm_num,
        Real.cos_two_pi_sub, hcosra, hccq]
    · rw [if_neg hc, hcosra, hccq]
  · unfold lonFlip
    simp only [hcond]
    by_cases hc : 0 < p ∧ 1.0e-9 < p / cc
    · rw [if_pos hc, show (2.0 : ℝ) * Real.pi = 2 * Real.pi by norm_num,
        Real.sin_two_pi_sub, hsinra, abs_of_pos hc.1]
      have h2 : cc * (p / cc) = p := mul_div_cancel₀ p hccpos.ne.symm
      have h3 : (-1.0 : ℝ) * cc * -(p / cc) - p = 0 := by
        field_simp
        ring
      rw [h3, abs_zero]
      norm_num
    · rw [if_neg hc, hsinra]
      rcases lt_trichotomy p 0 with hp | hp | hp
      · have h4 : (-1.0 : ℝ) * cc * (|p| / cc) - p = 0 := by
          rw [abs_of_neg hp]
          field_simp
          ring
        rw [h4, abs_zero]
        norm_num
      · have h4 : (-1.0 : ℝ) * cc * (|p| / cc) - p = 0 := by
          rw [hp, abs_zero]
          field_simp
        rw [h4, abs_zero]
        norm_num
      · have hth : p / cc ≤ 1.0e-9 := by
          by_contra hgt
          exact hc ⟨hp, lt_of_not_le hgt⟩
        have hple : p ≤ 1.0e-9 := by
          calc p = p / cc * cc := by field_simp
            _ ≤ 1.0e-9 * 1 := by
                apply mul_le_mul hth hccle hccpos.le
                norm_num
            _ = 1.0e-9 := mul_one _
        have h4 : (-1.0 : ℝ) * cc * (|p| / cc) - p = -2 * p := by
          rw [abs_of_pos hp]
          field_simp
          ring
        rw [h4, abs_of_nonpos (by linarith)]
        norm_num
        linarith

theorem arctan2_cos_zero {r : ℝ} (hr : r ≠ 0) : Real.cos (arctan2 r 0) = 0 := by
  unfold arctan2
  have hz : ({ re := 0, im := r } : ℂ) ≠ 0 := by
    intro h
    rw [Complex.ext_iff] at h
    exact hr h.2
  rw [Complex.cos_arg hz]
  show (0 : ℝ) / Complex.abs { re := 0, im := r } = 0
  rw [zero_div]

theorem arctan2_sin_zero {r : ℝ} (hr : |r| = 1) : Real.sin (arctan2 r 0) = r := by
  unfold arctan2
  rw [Complex.sin_arg]
  show r / Complex.abs { re := 0, im := r } = r
  rw [Complex.abs_apply, Complex.normSq_mk]
  have h : (0 : ℝ) * 0 + r * r = 1 := by
    nlinarith [sq_abs r, hr]
  rw [h, Real.sqrt_one, div_one]

/-- Characterisation of the forward transform: the recovered
longitude/latitude reproduce the rotated vector exactly in its second and
third coordinates and to within `2e-9` in the first, and off the pointing
axis the scalar path returns the same pair the batched path computes. -/
theorem nativeLonLat_char (ra dec rp dp : ℝ) (p q r : ℝ)
    (hv2 : (p, q, r) = rotForward rp dp (unitVec ra dec)) :
    (unitVec (nativeLonLatBatchElem ra dec rp dp).1
        (nativeLonLatBatchElem ra dec rp dp).2).2.1 = q ∧
    (unitVec (nativeLonLatBatchElem ra dec rp dp).1
        (nativeLonLatBatchElem ra dec rp dp).2).2.2 = r ∧
    |(unitVec (nativeLonLatBatchElem ra dec rp dp).1
        (nativeLonLatBatchElem ra dec rp dp).2).1 - p| ≤ 2 / 1000000000 ∧
    (¬(p = 0 ∧ q = 0) →
      nativeLonLatScalar ra dec rp dp =
        Except.ok (nativeLonLatBatchElem ra dec rp dp)) := by
  have hnorm : p ^ 2 + q ^ 2 + r ^ 2 = 1 := by
    have h1 := rotForward_norm rp dp (unitVec ra dec)
    have h2 := unitVec_norm ra dec
    rw [← hv2] at h1
    simp only at h1
    linarith
  by_cases hpq : p = 0 ∧ q = 0
  · -- the rotated vector lies on the pointing axis (native pole)
    obtain ⟨hp, hq⟩ := hpq
    have hr : r ≠ 0 := by
      intro h
      rw [hp, hq, h] at hnorm
      norm_num at hnorm
    have hr1 : |r| = 1 := by
      have h5 : r ^ 2 = 1 := by nlinarith
      rcases abs_cases r with ⟨h1, _⟩ | ⟨h1, _⟩ <;> nlinarith [sq_abs r]
    have hccz : Real.sqrt (p * p + q * q) = 0 := by
      rw [hp, hq]
      norm_num
    have hlatcos : Real.cos (arctan2 r (Real.sqrt (p * p + q * q))) = 0 := by
      rw [hccz]
      exact arctan2_cos_zero hr
    have hlatsin : Real.sin (arctan2 r (Real.sqrt (p * p + q * q))) = r := by
      rw [hccz]
      exact arctan2_sin_zero hr1
    have hbatch :
        nativeLonLatBatchElem ra dec rp dp =
          (0, arctan2 r (Real.sqrt (p * p + q * q))) := by
      unfold nativeLonLatBatchElem
      rw [← hv2]
      unfold ratioOfVec
      simp only
      rw [if_pos hlatcos]
      rfl
    rw [hbatch]
    refine ⟨?_, ?_, ?_, ?_⟩
    · show Real.cos (arctan2 r (Real.sqrt (p * p + q * q))) * Real.cos 0 = q
      rw [Real.cos_zero, mul_one, hlatcos, hq]
    · exact hlatsin
    · show |(-1.0) * Real.cos (arctan2 r (Real.sqrt (p * p + q * q))) *
          Real.sin 0 - p| ≤ 2 / 1000000000
      rw [Real.sin_zero, hp]
      norm_num
    · intro hcon
      exact absurd ⟨hp, hq⟩ hcon
  · -- generic case: the arccos/flip extraction applies
    obtain ⟨hcos, hsin, hccpos, hy, hcc_cos, hcc_sin⟩ :=
      extract_spherical p q r hnorm hpq
    have hbatch :
        nativeLonLatBatchElem ra dec rp dp =
          (lonFlip (Real.arccos (q / Real.sqrt (p * p + q * q)))
            (q / Real.sqrt (p * p + q * q)) p q,
           arctan2 r (Real.sqrt (p * p + q * q))) := by
      unfold nativeLonLatBatchElem
      rw [← hv2]
      unfold ratioOfVec
      simp only
      rw [if_neg (by rw [hcos]; exact hccpos.ne.symm)]
      rw [hcos]
      simp only [batchLonFromRatio]
      rw [if_neg (not_lt.mpr hy)]
    have hscalar :
        nativeLonLatScalar ra dec rp dp =
          Except.ok (nativeLonLatBatchElem ra dec rp dp) := by
      unfold nativeLonLatScalar
      rw [← hv2]
      unfold ratioOfVec
      simp only
      rw [if_neg (by rw [hcos]; exact hccpos.ne.symm)]
      rw [hcos]
      simp only [scalarLonFromRatio]
      rw [if_neg (not_lt.mpr hy)]
      rw [hbatch]
    rw [hbatch]
    refine ⟨?_, ?_, ?_, fun _ => by rw [hscalar, hbatch]⟩
    · show Real.cos (arctan2 r (Real.sqrt (p * p + q * q))) *
        Real.cos (lonFlip (Real.arccos (q / Real.sqrt (p * p + q * q)))
          (q / Real.sqrt (p * p + q * q)) p q) = q
      rw [hcos]
      exact hcc_cos
    · exact hsin
    · show |(-1.0) * Real.cos (arctan2 r (Real.sqrt (p * p + q * q))) *
          Real.sin (lonFlip (Real.arccos (q / Real.sqrt (p * p + q * q)))
            (q / Real.sqrt (p * p + q * q)) p q) - p| ≤ 2 / 1000000000
      rw [hcos]
      exact hcc_sin

/-- Characterisation of the inverse transform: applied to any
longitude/latitude pair it reproduces the inversely rotated unit vector
exactly in its second and third coordinates and to within `2e-9` in the
first. -/
theorem raDecFromNativeLonLat_char (lon lat rp dp : ℝ) (p q r : ℝ)
    (hw : (p, q, r) = rotInverse rp dp (unitVec lon lat)) :
    (unitVec (raDecFromNativeLonLat lon lat rp dp).1
        (raDecFromNativeLonLat lon lat rp dp).2).2.1 = q ∧
    (unitVec (raDecFromNativeLonLat lon lat rp dp).1
        (raDecFromNativeLonLat lon lat rp dp).2).2.2 = r ∧
    |(unitVec (raDecFromNativeLonLat lon lat rp dp).1
        (raDecFromNativeLonLat lon lat rp dp).2).1 - p| ≤ 2 / 1000000000 := by
  have hnorm : p ^ 2 + q ^ 2 + r ^ 2 = 1 := by
    have h1 := rotInverse_norm rp dp (unitVec lon lat)
    have h2 := unitVec_norm lon lat
    rw [← hw] at h1
    simp only at h1
    linarith
  by_cases hpq : p = 0 ∧ q = 0
  · obtain ⟨hp, hq⟩ := hpq
    have hr : r ≠ 0 := by
      intro h
      rw [hp, hq, h] at hnorm
      norm_num at hnorm
    have hr1 : |r| = 1 := by
      have h5 : r ^ 2 = 1 := by nlinarith
      rcases abs_cases r with ⟨h1, _⟩ | ⟨h1, _⟩ <;> nlinarith [sq_abs r]
    have hccz : Real.sqrt (p * p + q * q) = 0 := by
      rw [hp, hq]
      norm_num
    have hlatcos : Real.cos (arctan2 r (Real.sqrt (p * p + q * q))) = 0 := by
      rw [hccz]
      exact arctan2_cos_zero hr
    have hlatsin : Real.sin (arctan2 r (Real.sqrt (p * p + q * q))) = r := by
      rw [hccz]
      exact arctan2_sin_zero hr1
    have hout :
        raDecFromNativeLonLat lon lat rp dp =
          (0, arctan2 r (Real.sqrt (p * p + q * q))) := by
      unfold raDecFromNativeLonLat
      rw [← hw]
      unfold ratioOfVec
      simp only
      rw [if_pos hlatcos]
      rfl
    rw [hout]
    refine ⟨?_, ?_, ?_⟩
    · show Real.cos (arctan2 r (Real.sqrt (p * p + q * q))) * Real.cos 0 = q
      rw [Real.cos_zero, mul_one, hlatcos, hq]
    · exact hlatsin
    · show |(-1.0) * Real.cos (arctan2 r (Real.sqrt (p * p + q * q))) *
          Real.sin 0 - p| ≤ 2 / 1000000000
      rw [Real.sin_zero, hp]
      norm_num
  · obtain ⟨hcos, hsin, hccpos, hy, hcc_cos, hcc_sin⟩ :=
      extract_spherical p q r hnorm hpq
    have hout :
        raDecFromNativeLonLat lon lat rp dp =
          (lonFlip (Real.arccos (q / Real.sqrt (p * p + q * q)))
            (q / Real.sqrt (p * p + q * q)) p q,
           arctan2 r (Real.sqrt (p * p + q * q))) := by
      unfold raDecFromNativeLonLat
      rw [← hw]
      unfold ratioOfVec
      simp only
      rw [if_neg (by rw [hcos]; exact hccpos.ne.symm)]
      rw [hcos]
      simp only [scalarRaFromRatio]
      rw [if_neg (not_lt.mpr hy)]
    rw [hout]
    refine ⟨?_, ?_, ?_⟩
    · show Real.cos (arctan2 r (Real.sqrt (p * p + q * q))) *
        Real.cos (lonFlip (Real.arccos (q / Real.sqrt (p * p + q * q)))
          (q / Real.sqrt (p * p + q * q)) p q) = q
      rw [hcos]
      exact hcc_cos
    · exact hsin
    · show |(-1.0) * Real.cos (arctan2 r (Real.sqrt (p * p + q * q))) *
          Real.sin (lonFlip (Real.arccos (q / Real.sqrt (p * p + q * q)))
            (q / Real.sqrt (p * p + q * q)) p q) - p| ≤ 2 / 1000000000
      rw [hcos]
      exact hcc_sin

/-- C5 counterexample: with the target at the pointing (`ra = raPointing
= 0`, `dec = decPointing = pi/2`, a lat = 90 deg boundary case explicitly
included by the claim), the rotated vector is the native pole, the ratio
is NaN (`0.0/0.0`), and the scalar forward transform raises a `TypeError`
instead of returning coordinates, so the claimed scalar round trip is
impossible there. -/
theorem C5_pole_scalar_counterexample :
    nativeLonLatScalar 0 (Real.pi / 2) 0 (Real.pi / 2) =
      Except.error "TypeError" := by
  have hv : rotForward 0 (Real.pi / 2) (unitVec 0 (Real.pi / 2)) =
      (0, 0, 1) := by
    unfold rotForward unitVec
    rw [show Real.pi / 2 - 0.5 * Real.pi = 0 by ring,
      show (-1.0 : ℝ) * 0 = 0 by norm_num]
    simp [Real.cos_pi_div_two, Real.sin_pi_div_two]
  unfold nativeLonLatScalar
  rw [hv]
  dsimp only
  have hcc : Real.sqrt ((0 : ℝ) * 0 + 0 * 0) = 0 := by
    norm_num
  rw [hcc]
  have hlatcos : Real.cos (arctan2 1 0) = 0 := arctan2_cos_zero one_ne_zero
  unfold ratioOfVec
  simp only
  rw [if_pos hlatcos]
  rfl

/-- C5 (amended): the native-frame round trip recovers the original
position up to angular-coordinate equivalence within `1e-8` in each unit
vector coordinate for every input - including pointings and targets at
latitude +-90 deg - along the batched per-element path; the scalar path
returns the very same coordinates whenever the rotated target is not
exactly on the pointing axis (there it instead raises the `TypeError` of
the C1 dispatch defect while the batched path still recovers the
position). -/
theorem C5_native_round_trip
    (ra dec rp dp : ℝ) :
    (|(unitVec
          (raDecFromNativeLonLat (nativeLonLatBatchElem ra dec rp dp).1
            (nativeLonLatBatchElem ra dec rp dp).2 rp dp).1
          (raDecFromNativeLonLat (nativeLonLatBatchElem ra dec rp dp).1
            (nativeLonLatBatchElem ra dec rp dp).2 rp dp).2).1 -
        (unitVec ra dec).1| ≤ 1 / 100000000 ∧
      |(unitVec
          (raDecFromNativeLonLat (nativeLonLatBatchElem ra dec rp dp).1
            (nativeLonLatBatchElem ra dec rp dp).2 rp dp).1
          (raDecFromNativeLonLat (nativeLonLatBatchElem ra dec rp dp).1
            (nativeLonLatBatchElem ra dec rp dp).2 rp dp).2).2.1 -
        (unitVec ra dec).2.1| ≤ 1 / 100000000 ∧
      |(unitVec
          (raDecFromNativeLonLat (nativeLonLatBatchElem ra dec rp dp).1
            (nativeLonLatBatchElem ra dec rp dp).2 rp dp).1
          (raDecFromNativeLonLat (nativeLonLatBatchElem ra dec rp dp).1
            (nativeLonLatBatchElem ra dec rp dp).2 rp dp).2).2.2 -
        (unitVec ra dec).2.2| ≤ 1 / 100000000) ∧
    (¬((rotForward rp dp (unitVec ra dec)).1 = 0 ∧
        (rotForward rp dp (unitVec ra dec)).2.1 = 0) →
      nativeLonLatScalar ra dec rp dp =
        Except.ok (nativeLonLatBatchElem ra dec rp dp)) := by
  obtain ⟨hA1, hA2, hA3, hA4⟩ :=
    nativeLonLat_char ra dec rp dp
      (rotForward rp dp (unitVec ra dec)).1
      (rotForward rp dp (unitVec ra dec)).2.1
      (rotForward rp dp (unitVec ra dec)).2.2 rfl
  have hu : unitVec (nativeLonLatBatchElem ra dec rp dp).1
      (nativeLonLatBatchElem ra dec rp dp).2 =
      ((rotForward rp dp (unitVec ra dec)).1 +
        ((unitVec (nativeLonLatBatchElem ra dec rp dp).1
            (nativeLonLatBatchElem ra dec rp dp).2).1 -
          (rotForward rp dp (unitVec ra dec)).1),
       (rotForward rp dp (unitVec ra dec)).2.1,
       (rotForward rp dp (unitVec ra dec)).2.2) := by
    rw [show unitVec (nativeLonLatBatchElem ra dec rp dp).1
        (nativeLonLatBatchElem ra dec rp dp).2 =
        ((unitVec (nativeLonLatBatchElem ra dec rp dp).1
            (nativeLonLatBatchElem ra dec rp dp).2).1,
         (unitVec (nativeLonLatBatchElem ra dec rp dp).1
            (nativeLonLatBatchElem ra dec rp dp).2).2.1,
         (unitVec (nativeLonLatBatchElem ra dec rp dp).1
            (nativeLonLatBatchElem ra dec rp dp).2).2.2) from rfl]
    rw [hA1, hA2]
    rw [show (rotForward rp dp (unitVec ra dec)).1 +
        ((unitVec (nativeLonLatBatchElem ra dec rp dp).1
            (nativeLonLatBatchElem ra dec rp dp).2).1 -
          (rotForward rp dp (unitVec ra dec)).1) =
        (unitVec (nativeLonLatBatchElem ra dec rp dp).1
            (nativeLonLatBatchElem ra dec rp dp).2).1 by ring]
  have hO : rotInverse rp dp
      ((rotForward rp dp (unitVec ra dec)).1,
       (rotForward rp dp (unitVec ra dec)).2.1,
       (rotForward rp dp (unitVec ra dec)).2.2) = unitVec ra dec := by
    rw [show ((rotForward rp dp (unitVec ra dec)).1,
        (rotForward rp dp (unitVec ra dec)).2.1,
        (rotForward rp dp (unitVec ra dec)).2.2) =
        rotForward rp dp (unitVec ra dec) from rfl]
    exact rotInverse_rotForward rp dp (unitVec ra dec)
  have hw : ((unitVec ra dec).1 + Real.cos rp *
        ((unitVec (nativeLonLatBatchElem ra dec rp dp).1
            (nativeLonLatBatchElem ra dec rp dp).2).1 -
          (rotForward rp dp (unitVec ra dec)).1),
      (unitVec ra dec).2.1 + Real.sin rp *
        ((unitVec (nativeLonLatBatchElem ra dec rp dp).1
            (nativeLonLatBatchElem ra dec rp dp).2).1 -
          (rotForward rp dp (unitVec ra dec)).1),
      (unitVec ra dec).2.2) =
      rotInverse rp dp (unitVec (nativeLonLatBatchElem ra dec rp dp).1
        (nativeLonLatBatchElem ra dec rp dp).2) := by
    conv_rhs => rw [hu]
    rw [rotInverse_shift_first, hO]
  obtain ⟨hB1, hB2, hB3⟩ :=
    raDecFromNativeLonLat_char (nativeLonLatBatchElem ra dec rp dp).1
      (nativeLonLatBatchElem ra dec rp dp).2 rp dp _ _ _ hw
  have hdel : |(unitVec (nativeLonLatBatchElem ra dec rp dp).1
      (nativeLonLatBatchElem ra dec rp dp).2).1 -
      (rotForward rp dp (unitVec ra dec)).1| ≤ 2 / 1000000000 := hA3
  refine ⟨⟨?_, ?_, ?_⟩, hA4⟩
  · calc |(unitVec
          (raDecFromNativeLonLat (nativeLonLatBatchElem ra dec rp dp).1
            (nativeLonLatBatchElem ra dec rp dp).2 rp dp).1
          (raDecFromNativeLonLat (nativeLonLatBatchElem ra dec rp dp).1
            (nativeLonLatBatchElem ra dec rp dp).2 rp dp).2).1 -
        (unitVec ra dec).1|
        ≤ |(unitVec
          (raDecFromNativeLonLat (nativeLonLatBatchElem ra dec rp dp).1
            (nativeLonLatBatchElem ra dec rp dp).2 rp dp).1
          (raDecFromNativeLonLat (nativeLonLatBatchElem ra dec rp dp).1
            (nativeLonLatBatchElem ra dec rp dp).2 rp dp).2).1 -
          ((unitVec ra dec).1 + Real.cos rp *
            ((unitVec (nativeLonLatBatchElem ra dec rp dp).1
                (nativeLonLatBatchElem ra dec rp dp).2).1 -
              (rotForward rp dp (unitVec ra dec)).1))| +
          |((unitVec ra dec).1 + Real.cos rp *
            ((unitVec (nativeLonLatBatchElem ra dec rp dp).1
                (nativeLonLatBatchElem ra dec rp dp).2).1 -
              (rotForward rp dp (unitVec ra dec)).1)) -
            (unitVec ra dec).1| := abs_sub_le _ _ _
      _ ≤ 1 / 100000000 := by
          have h1 := hB3
          have h2 : |((unitVec ra dec).1 + Real.cos rp *
              ((unitVec (nativeLonLatBatchElem ra dec rp dp).1
                  (nativeLonLatBatchElem ra dec rp dp).2).1 -
                (rotForward rp dp (unitVec ra dec)).1)) -
              (unitVec ra dec).1| ≤ 2 / 1000000000 := by
            rw [show ((unitVec ra dec).1 + Real.cos rp *
                ((unitVec (nativeLonLatBatchElem ra dec rp dp).1
                    (nativeLonLatBatchElem ra dec rp dp).2).1 -
                  (rotForward rp dp (unitVec ra dec)).1)) -
                (unitVec ra dec).1 =
                Real.cos rp *
                ((unitVec (nativeLonLatBatchElem ra dec rp dp).1
                    (nativeLonLatBatchElem ra dec rp dp).2).1 -
                  (rotForward rp dp (unitVec ra dec)).1) by ring]
            rw [abs_mul]
            calc |Real.cos rp| *
                |(unitVec (nativeLonLatBatchElem ra dec rp dp).1
                    (nativeLonLatBatchElem ra dec rp dp).2).1 -
                  (rotForward rp dp (unitVec ra dec)).1|
                ≤ 1 * (2 / 1000000000) :=
                  mul_le_mul (Real.abs_cos_le_one rp) hdel (abs_nonneg _)
                    zero_le_one
              _ = 2 / 1000000000 := one_mul _
          linarith
  · rw [hB1]
    rw [show (unitVec ra dec).2.1 + Real.sin rp *
        ((unitVec (nativeLonLatBatchElem ra dec rp dp).1
            (nativeLonLatBatchElem ra dec rp dp).2).1 -
          (rotForward rp dp (unitVec ra dec)).1) -
        (unitVec ra dec).2.1 =
        Real.sin rp *
        ((unitVec (nativeLonLatBatchElem ra dec rp dp).1
            (nativeLonLatBatchElem ra dec rp dp).2).1 -
          (rotForward rp dp (unitVec ra dec)).1) by ring]
    rw [abs_mul]
    calc |Real.sin rp| *
        |(unitVec (nativeLonLatBatchElem ra dec rp dp).1
            (nativeLonLatBatchElem ra dec rp dp).2).1 -
          (rotForward rp dp (unitVec ra dec)).1|
        ≤ 1 * (2 / 1000000000) :=
          mul_le_mul (Real.abs_sin_le_one rp) hdel (abs_nonneg _) zero_le_one
      _ ≤ 1 / 100000000 := by norm_num
  · rw [hB2]
    simp

/-- C5 witness: a concrete off-axis input at which the scalar-path round
trip of the amended claim applies (target at the equator, pointing at the
pole). -/
theorem C5_native_round_trip_witness :
    nativeLonLatScalar (Real.pi / 2) 0 0 (Real.pi / 2) =
      Except.ok (nativeLonLatBatchElem (Real.pi / 2) 0 0 (Real.pi / 2)) := by
  have hv : rotForward 0 (Real.pi / 2) (unitVec (Real.pi / 2) 0) =
      (-1, 0, 0) := by
    unfold rotForward unitVec
    rw [show Real.pi / 2 - 0.5 * Real.pi = 0 by ring,
      show (-1.0 : ℝ) * 0 = 0 by norm_num]
    simp [Real.cos_pi_div_two, Real.sin_pi_div_two]
    norm_num
  refine (C5_native_round_trip (Real.pi / 2) 0 0 (Real.pi / 2)).2 ?_
  rw [hv]
  intro h
  norm_num at h

theorem datLookup_le (u : ℚ) :
    ∀ (tbl : List (ℚ × ℚ)) (d : ℚ),
      List.Chain (· ≤ ·) d (tbl.map Prod.snd) → d ≤ datLookup d tbl u := by
  intro tbl
  induction tbl with
  | nil => intro d _; exact le_refl d
  | cons bv rest ih =>
      intro d hch
      obtain ⟨b, v⟩ := bv
      rw [List.map_cons, List.chain_cons] at hch
      unfold datLookup
      by_cases hb : u < b
      · rw [if_pos hb]
      · rw [if_neg hb]
        exact le_trans hch.1 (ih v hch.2)

theorem datLookup_mono (u u' : ℚ) (huu : u ≤ u') :
    ∀ (tbl : List (ℚ × ℚ)) (d : ℚ),
      List.Chain (· ≤ ·) d (tbl.map Prod.snd) →
      datLookup d tbl u ≤ datLookup d tbl u' := by
  intro tbl
  induction tbl with
  | nil => intro d _; exact le_refl d
  | cons bv rest ih =>
      intro d hch
      obtain ⟨b, v⟩ := bv
      rw [List.map_cons, List.chain_cons] at hch
      unfold datLookup
      by_cases hb : u < b
      · rw [if_pos hb]
        by_cases hb' : u' < b
        · rw [if_pos hb']
        · rw [if_neg hb']
          exact le_trans hch.1 (datLookup_le u' rest v hch.2)
      · rw [if_neg hb, if_neg (by intro h; exact hb (lt_of_le_of_lt huu h))]
        exact ih v hch.2

theorem datLookup_mem (u : ℚ) :
    ∀ (tbl : List (ℚ × ℚ)) (d : ℚ),
      datLookup d tbl u = d ∨ datLookup d tbl u ∈ tbl.map Prod.snd := by
  intro tbl
  induction tbl with
  | nil => intro d; exact Or.inl rfl
  | cons bv rest ih =>
      intro d
      obtain ⟨b, v⟩ := bv
      unfold datLookup
      by_cases hb : u < b
      · rw [if_pos hb]
        exact Or.inl rfl
      · rw [if_neg hb]
        rcases ih v with h | h
        · right
          rw [h, List.map_cons]
          exact List.mem_cons_self _ _
        · right
          rw [List.map_cons]
          exact List.mem_cons_of_mem _ h

theorem leapTable_chain : List.Chain (· ≤ ·) 10 (leapTable.map Prod.snd) := by
  unfold leapTable
  simp only [List.map_cons, List.map_nil, List.chain_cons, List.Chain.nil,
    and_true]
  norm_num

theorem palDat_ge (u : ℚ) : 10 ≤ palDat u :=
  datLookup_le u leapTable 10 leapTable_chain

theorem palDat_mono {u u' : ℚ} (h : u ≤ u') : palDat u ≤ palDat u' :=
  datLookup_mono u u' h leapTable 10 leapTable_chain

theorem range_map_cons (gp : ℕ → ℚ × ℚ) (n : ℕ) :
    (List.range (n + 1)).map gp =
      gp 0 :: (List.range n).map fun i => gp (i + 1) := by
  rw [List.range_succ_eq_map, List.map_cons, List.map_map]
  rfl

theorem npInterp_head (x : ℚ) (gp : ℕ → ℚ × ℚ) (N : ℕ) (hN : 1 ≤ N)
    (hx : x ≤ (gp 0).1) :
    npInterp x ((List.range N).map gp) = (gp 0).2 := by
  match N, hN with
  | 1, _ =>
      rw [range_map_cons]
      simp [npInterp]
  | (n+2), _ =>
      rw [range_map_cons, range_map_cons]
      simp only [npInterp]
      rw [if_pos hx]

theorem npInterp_bracket (x : ℚ) :
    ∀ (k : ℕ) (gp : ℕ → ℚ × ℚ) (N : ℕ), k + 1 < N →
      (∀ i, i ≤ k → (gp i).1 < x) → x ≤ (gp (k + 1)).1 →
      npInterp x ((List.range N).map gp) =
        (gp k).2 + (x - (gp k).1) * ((gp (k + 1)).2 - (gp k).2) /
          ((gp (k + 1)).1 - (gp k).1) := by
  intro k
  induction k with
  | zero =>
      intro gp N hN hmono hx1
      match N, hN with
      | (n+2), _ =>
          rw [range_map_cons, range_map_cons]
          simp only [npInterp]
          rw [if_neg (not_le.mpr (hmono 0 (le_refl 0))), if_pos hx1]
  | succ k ih =>
      intro gp N hN hmono hx1
      match N, hN with
      | (n+3), hN =>
          rw [range_map_cons, range_map_cons]
          simp only [npInterp]
          rw [if_neg (not_le.mpr (hmono 0 (Nat.zero_le _))),
            if_neg (not_le.mpr (hmono 1 (Nat.one_le_iff_ne_zero.mpr (Nat.succ_ne_zero k))))]
          simp only [Prod.mk.eta]
          rw [← range_map_cons (fun i => gp (i + 1)) (n + 1)]
          have h := ih (fun i => gp (i + 1)) (n + 2)
            (by omega)
            (fun i hi => hmono (i + 1) (by omega))
            (by
              show x ≤ (gp (k + 1 + 1)).1
              exact hx1)
          rw [h]

/-- Away from the leap-second discontinuities the interpolating inverse
is exact: if `palDat` is constant on the `1e-6`-day window around `utc`,
then `utcFromTai (taiFromUtc utc) = utc`. -/
theorem utcFromTai_taiFromUtc (utc : ℚ)
    (hconst : ∀ u : ℚ, utc - 1 / 1000000 ≤ u → u ≤ utc + 1 / 1000000 →
      palDat u = palDat utc) :
    utcFromTai (taiFromUtc utc) = utc := by
  have htai_u : ∀ u : ℚ, taiFromUtc u = u + palDat u / 86400 := fun _ => rfl
  have hc10 : (10 : ℚ) ≤ palDat utc := palDat_ge utc
  have hutcT : utc ≤ taiFromUtc utc := by
    rw [htai_u]
    linarith
  have hd10 : (10 : ℚ) ≤ palDat (taiFromUtc utc) := palDat_ge _
  have hcd : palDat utc ≤ palDat (taiFromUtc utc) := palDat_mono hutcT
  unfold utcFromTai npArange
  dsimp only
  rw [List.map_map]
  set T := taiFromUtc utc with hT
  set c := palDat utc with hc
  set d := palDat T with hd
  set step : ℚ := 1 / 1000000 with hstep
  set S := T - 1 * (d * (1 / 86400)) with hS
  set N := (⌈(T + 1 * (d * (1 / 86400)) - S) / step⌉).toNat with hNdef
  set gp := ((fun u : ℚ => (taiFromUtc u, u)) ∘ fun k : ℕ => S + (k : ℚ) * step)
    with hgp
  have hstep_pos : (0 : ℚ) < step := by rw [hstep]; norm_num
  have hd0 : (0 : ℚ) < d := by linarith
  have hgp1 : ∀ k : ℕ, (gp k).1 = taiFromUtc (S + (k : ℚ) * step) := by
    intro k
    rw [hgp]
    rfl
  have hgp2 : ∀ k : ℕ, (gp k).2 = S + (k : ℚ) * step := by
    intro k
    rw [hgp]
    rfl
  have hTev : T = utc + c / 86400 := htai_u utc
  have hSutc : S = utc + c / 86400 - d / 86400 := by
    rw [hS, hTev]
    ring
  have hSle : S ≤ utc := by
    rw [hSutc]
    linarith
  have hST : S ≤ T := by
    rw [hSutc, hTev]
    linarith
  have ht0 : (0 : ℚ) ≤ (utc - S) / step := by
    apply div_nonneg _ hstep_pos.le
    linarith
  have hfl0 : (0 : ℤ) ≤ ⌊(utc - S) / step⌋ := Int.floor_nonneg.mpr ht0
  set k0 := (⌊(utc - S) / step⌋).toNat with hk0def
  have hk0cast : (k0 : ℚ) = ((⌊(utc - S) / step⌋ : ℤ) : ℚ) := by
    rw [hk0def]
    exact_mod_cast congrArg (fun z : ℤ => (z : ℚ)) (Int.toNat_of_nonneg hfl0)
  clear_value T c d step S N gp k0
  have hleft : S + (k0 : ℚ) * step ≤ utc := by
    have h1 : ((⌊(utc - S) / step⌋ : ℤ) : ℚ) ≤ (utc - S) / step :=
      Int.floor_le _
    rw [← hk0cast] at h1
    have h2 : (k0 : ℚ) * step ≤ utc - S := by
      calc (k0 : ℚ) * step ≤ (utc - S) / step * step :=
            mul_le_mul_of_nonneg_right h1 hstep_pos.le
        _ = utc - S := div_mul_cancel₀ _ hstep_pos.ne.symm
    linarith
  have hright : utc < S + ((k0 : ℚ) + 1) * step := by
    have h1 : (utc - S) / step < ((⌊(utc - S) / step⌋ : ℤ) : ℚ) + 1 :=
      Int.lt_floor_add_one _
    rw [← hk0cast] at h1
    have h2 : utc - S < ((k0 : ℚ) + 1) * step := by
      calc utc - S = (utc - S) / step * step :=
            (div_mul_cancel₀ _ hstep_pos.ne.symm).symm
        _ < ((k0 : ℚ) + 1) * step :=
            mul_lt_mul_of_pos_right h1 hstep_pos
    linarith
  have hk0N : k0 + 1 < N := by
    have hflle : ((⌊(utc - S) / step⌋ : ℤ) : ℚ) ≤ (utc - S) / step :=
      Int.floor_le _
    have hsle : (T + 1 * (d * (1 / 86400)) - S) / step ≤
        ((⌈(T + 1 * (d * (1 / 86400)) - S) / step⌉ : ℤ) : ℚ) := Int.le_ceil _
    have htsum : (utc - S) / step = (d - c) * (1000000 / 86400) := by
      rw [hSutc, hstep]
      field_simp
      ring
    have hstopS : (T + 1 * (d * (1 / 86400)) - S) / step =
        2 * d * (1000000 / 86400) := by
      rw [hS, hstep]
      field_simp
      ring
    have hgap : (utc - S) / step + 2 ≤ (T + 1 * (d * (1 / 86400)) - S) / step := by
      rw [htsum, hstopS]
      nlinarith
    have hZ : (⌊(utc - S) / step⌋ : ℤ) + 2 ≤
        ⌈(T + 1 * (d * (1 / 86400)) - S) / step⌉ := by
      have h6 : ((⌊(utc - S) / step⌋ : ℤ) : ℚ) + 2 ≤
          ((⌈(T + 1 * (d * (1 / 86400)) - S) / step⌉ : ℤ) : ℚ) := by
        linarith
      exact_mod_cast h6
    rw [hNdef, hk0def]
    omega
  have hwin0 : palDat (S + (k0 : ℚ) * step) = c := by
    apply hconst
    · linarith
    · linarith
  have hwin1 : palDat (S + ((k0 : ℚ) + 1) * step) = c := by
    apply hconst
    · linarith
    · have h7 : S + ((k0 : ℚ) + 1) * step = S + (k0 : ℚ) * step + step := by
        ring
      linarith
  have hgmono : ∀ i j : ℕ, i < j →
      taiFromUtc (S + (i : ℚ) * step) < taiFromUtc (S + (j : ℚ) * step) := by
    intro i j hij
    have hij1 : ((i : ℕ) : ℚ) < (j : ℚ) := by exact_mod_cast hij
    have hu : S + (i : ℚ) * step < S + (j : ℚ) * step := by
      have h8 := mul_lt_mul_of_pos_right hij1 hstep_pos
      linarith
    have hdm : palDat (S + (i : ℚ) * step) ≤ palDat (S + (j : ℚ) * step) :=
      palDat_mono hu.le
    rw [htai_u, htai_u]
    linarith
  have hgk0le : taiFromUtc (S + (k0 : ℚ) * step) ≤ T := by
    rw [htai_u, hwin0, hTev]
    linarith
  have hgk1gt : T < taiFromUtc (S + ((k0 : ℚ) + 1) * step) := by
    rw [htai_u, hwin1, hTev]
    linarith
  by_cases hA : T ≤ (gp 0).1
  · -- the grid starts exactly at utc: the head clause returns it
    rw [npInterp_head T gp N (by omega) hA]
    rw [hgp2]
    have hS0 : S + ((0 : ℕ) : ℚ) * step = S := by
      push_cast
      ring
    have hg0le : (gp 0).1 ≤ T := by
      rw [hgp1, hS0, htai_u]
      have h2 : palDat S ≤ d := by
        rw [hd]
        exact palDat_mono hST
      rw [hSutc] at h2 ⊢
      linarith
    have hg0T : (gp 0).1 = T := le_antisymm hg0le hA
    have hk00 : k0 = 0 := by
      by_contra hne
      have h9 : T < T := by
        calc T = (gp 0).1 := hg0T.symm
          _ = taiFromUtc (S + ((0 : ℕ) : ℚ) * step) := hgp1 0
          _ < taiFromUtc (S + (k0 : ℚ) * step) := hgmono 0 k0 (by omega)
          _ ≤ T := hgk0le
      exact absurd h9 (lt_irrefl T)
    have hwS : palDat S = c := by
      rw [← hS0]
      rw [show ((0 : ℕ) : ℚ) = ((k0 : ℕ) : ℚ) by rw [hk00]]
      exact hwin0
    have h10 : taiFromUtc S = T := by
      rw [← hS0, ← hgp1 0, hg0T]
    rw [htai_u, hwS, hTev] at h10
    rw [hS0]
    linarith
  · push_neg at hA
    by_cases hB : T ≤ (gp k0).1
    · -- the query coincides with grid node k0
      have hgk0T : (gp k0).1 = T := by
        rw [hgp1]
        exact le_antisymm hgk0le (by rw [hgp1] at hB; exact hB)
      have hk01 : 1 ≤ k0 := by
        by_contra hz
        have h11 : k0 = 0 := by omega
        rw [h11] at hgk0T
        rw [hgk0T] at hA
        exact absurd hA (lt_irrefl T)
      obtain ⟨k1, hk1⟩ : ∃ k1, k0 = k1 + 1 := ⟨k0 - 1, by omega⟩
      have hbr := npInterp_bracket T k1 gp N (by omega)
        (fun i hi => by
          rw [hgp1]
          calc taiFromUtc (S + (i : ℚ) * step) <
              taiFromUtc (S + (k0 : ℚ) * step) := hgmono i k0 (by omega)
            _ ≤ T := hgk0le)
        (by
          rw [← hk1]
          rw [hgp1]
          rw [hgp1] at hB
          exact hB)
      rw [hbr, ← hk1]
      have hlt : (gp k1).1 < (gp k0).1 := by
        rw [hgp1, hgp1]
        exact hgmono k1 k0 (by omega)
      have hne : (gp k0).1 - (gp k1).1 ≠ 0 := by linarith
      have hval : (gp k1).2 + (T - (gp k1).1) * ((gp k0).2 - (gp k1).2) /
          ((gp k0).1 - (gp k1).1) = (gp k0).2 := by
        rw [← hgk0T]
        field_simp
      rw [hval]
      -- node k0 is exactly utc
      have h12 : taiFromUtc (S + (k0 : ℚ) * step) = T := by
        rw [← hgp1, hgk0T]
      rw [htai_u, hwin0, hTev] at h12
      rw [hgp2]
      linarith
    · -- the query falls strictly inside segment (k0, k0+1)
      push_neg at hB
      have hcast1 : (((k0 + 1 : ℕ) : ℚ)) = (k0 : ℚ) + 1 := by push_cast; ring
      have hbr := npInterp_bracket T k0 gp N hk0N
        (fun i hi => by
          rw [hgp1]
          rcases Nat.lt_or_ge i k0 with h13 | h13
          · calc taiFromUtc (S + (i : ℚ) * step) <
                taiFromUtc (S + (k0 : ℚ) * step) := hgmono i k0 h13
              _ < T := by rw [hgp1] at hB; exact hB
          · have h14 : i = k0 := by omega
            rw [h14]
            rw [hgp1] at hB
            exact hB)
        (by
          rw [hgp1, hcast1]
          exact hgk1gt.le)
      rw [hbr]
      rw [hgp1, hgp1, hgp2, hgp2, hcast1]
      rw [htai_u, htai_u, hwin0, hwin1, hTev]
      have hstep_ne : step ≠ 0 := hstep_pos.ne.symm
      have halg : ∀ A B u e : ℚ, B - A ≠ 0 →
          A + (u + e - (A + e)) * (B - A) / (B + e - (A + e)) = u := by
        intro A B u e hBA
        have h15 : B + e - (A + e) = B - A := by ring
        rw [h15, mul_div_assoc, div_self hBA, mul_one]
        ring
      exact halg _ _ _ _ (by
        rw [show S + ((k0 : ℚ) + 1) * step - (S + (k0 : ℚ) * step) = step by ring]
        exact hstep_ne)

/-- The leap-second table is constant on short intervals away from its
boundaries; concretely it equals 29 on `[49534, 50083)`. -/
theorem datLookup_cons_lt {u b : ℚ} (d v : ℚ) (rest : List (ℚ × ℚ))
    (h : u < b) : datLookup d ((b, v) :: rest) u = d := by
  conv_lhs => unfold datLookup
  rw [if_pos h]

theorem datLookup_cons_ge {u b : ℚ} (d v : ℚ) (rest : List (ℚ × ℚ))
    (h : ¬ u < b) : datLookup d ((b, v) :: rest) u = datLookup v rest u := by
  conv_lhs => unfold datLookup
  rw [if_neg h]

theorem palDat_local_29 (u : ℚ) (h1 : 49534 ≤ u) (h2 : u < 50083) :
    palDat u = 29 := by
  unfold palDat leapTable
  rw [datLookup_cons_ge _ _ _ (by linarith : ¬ u < 41317)]
  rw [datLookup_cons_ge _ _ _ (by linarith : ¬ u < 41499)]
  rw [datLookup_cons_ge _ _ _ (by linarith : ¬ u < 41683)]
  rw [datLookup_cons_ge _ _ _ (by linarith : ¬ u < 42048)]
  rw [datLookup_cons_ge _ _ _ (by linarith : ¬ u < 42413)]
  rw [datLookup_cons_ge _ _ _ (by linarith : ¬ u < 42778)]
  rw [datLookup_cons_ge _ _ _ (by linarith : ¬ u < 43144)]
  rw [datLookup_cons_ge _ _ _ (by linarith : ¬ u < 43509)]
  rw [datLookup_cons_ge _ _ _ (by linarith : ¬ u < 43874)]
  rw [datLookup_cons_ge _ _ _ (by linarith : ¬ u < 44239)]
  rw [datLookup_cons_ge _ _ _ (by linarith : ¬ u < 44786)]
  rw [datLookup_cons_ge _ _ _ (by linarith : ¬ u < 45151)]
  rw [datLookup_cons_ge _ _ _ (by linarith : ¬ u < 45516)]
  rw [datLookup_cons_ge _ _ _ (by linarith : ¬ u < 46247)]
  rw [datLookup_cons_ge _ _ _ (by linarith : ¬ u < 47161)]
  rw [datLookup_cons_ge _ _ _ (by linarith : ¬ u < 47892)]
  rw [datLookup_cons_ge _ _ _ (by linarith : ¬ u < 48257)]
  rw [datLookup_cons_ge _ _ _ (by linarith : ¬ u < 48804)]
  rw [datLookup_cons_ge _ _ _ (by linarith : ¬ u < 49169)]
  rw [datLookup_cons_ge _ _ _ (by linarith : ¬ u < 49534)]
  exact datLookup_cons_lt _ _ _ h2

/-- C4 counterexample: the TAI instant `41499 + 10.5s/86400` lies inside
the leap-second insertion gap at the 1972-07-01 table boundary
(`TAI-UTC` steps from 10 s to 11 s at MJD 41499); the interpolating
inverse lands the round trip about `0.52 s` away, far beyond the claimed
sub-microsecond bound. -/
theorem C4_leap_gap_counterexample :
    ¬ (|taiFromUtc (utcFromTai (41499 + 21 / 2 / 86400)) -
        (41499 + 21 / 2 / 86400)| < 1 / 1000000 / 86400) := by
  decide

/-- C4 (amended): for every TAI value attained by `taiFromUtc` at a UTC
at least one interpolation-grid step (`1e-6` days) away from every
leap-second discontinuity - so that `palDat` is constant on that window -
the round trip through `utcFromTai` recovers TAI to well below one
microsecond (indeed exactly); TAI instants inside a leap-second insertion
gap are excluded, where the error can approach the inserted second. -/
theorem C4_round_trip_away_from_leap (tai utc : ℚ)
    (htai : taiFromUtc utc = tai)
    (hconst : ∀ u : ℚ, utc - 1 / 1000000 ≤ u → u ≤ utc + 1 / 1000000 →
      palDat u = palDat utc) :
    |taiFromUtc (utcFromTai tai) - tai| < 1 / 1000000 / 86400 := by
  rw [← htai, utcFromTai_taiFromUtc utc hconst, sub_self, abs_zero]
  norm_num

/-- C4 witness: the round trip at `utc = 50000` (TAI-UTC = 29 s there,
and constant on the grid window). -/
theorem C4_round_trip_away_from_leap_witness :
    |taiFromUtc (utcFromTai (taiFromUtc 50000)) - taiFromUtc 50000| <
      1 / 1000000 / 86400 :=
  C4_round_trip_away_from_leap (taiFromUtc 50000) 50000 rfl (by
    intro u h1 h2
    have hu : palDat u = 29 := palDat_local_29 u (by linarith) (by linarith)
    have h5 : palDat (50000 : ℚ) = 29 :=
      palDat_local_29 50000 (by norm_num) (by norm_num)
    rw [hu, h5])

end SimsUtils
